import Mathlib

/-!
Verification development for the ZigSight analytics/topology/recommender core.

Python sources are shallowly embedded:
* pure numeric code becomes functions over `ℚ` (Python floats are modelled as
  exact rationals; `int`s as `ℤ`);
* dictionaries of dynamic values become association lists of `PyVal`;
* code that can raise becomes `Except PyErr`-valued, with Python
  `try/except (…)` blocks modelled by catching exactly the listed error kinds.
-/

namespace ZigSight

/-! ## Frequency-overlap scorer (`recommender.py`) -/

/-- `WIFI_CHANNEL_FREQ`: Wi-Fi channel → centre frequency (MHz), channels 1–14. -/
def wifiChannelFreq (c : Int) : Option Int :=
  match c with
  | 1 => some 2412
  | 2 => some 2417
  | 3 => some 2422
  | 4 => some 2427
  | 5 => some 2432
  | 6 => some 2437
  | 7 => some 2442
  | 8 => some 2447
  | 9 => some 2452
  | 10 => some 2457
  | 11 => some 2462
  | 12 => some 2467
  | 13 => some 2472
  | 14 => some 2484
  | _ => none

/-- `ZIGBEE_CHANNEL_FREQ`: Zigbee channel → centre frequency (MHz), channels 11–26. -/
def zigbeeChannelFreq (c : Int) : Option Int :=
  match c with
  | 11 => some 2405
  | 12 => some 2410
  | 13 => some 2415
  | 14 => some 2420
  | 15 => some 2425
  | 16 => some 2430
  | 17 => some 2435
  | 18 => some 2440
  | 19 => some 2445
  | 20 => some 2450
  | 21 => some 2455
  | 22 => some 2460
  | 23 => some 2465
  | 24 => some 2470
  | 25 => some 2475
  | 26 => some 2480
  | _ => none

/-- `RECOMMENDED_ZIGBEE_CHANNELS = [11, 15, 20, 25]`. -/
def recommendedZigbeeChannels : List Int := [11, 15, 20, 25]

/-- `calculate_overlap_factor(wifi_channel, zigbee_channel, rssi)`. -/
def calculate_overlap_factor (wifi_channel zigbee_channel : Int) (rssi : ℚ) : ℚ :=
  match wifiChannelFreq wifi_channel with
  | none => 0
  | some wifi_freq =>
    match zigbeeChannelFreq zigbee_channel with
    | none => 0
    | some zigbee_freq =>
      let freq_distance : Int := |wifi_freq - zigbee_freq|
      if freq_distance > 22 then 0
      else
        let overlap_percentage : ℚ := max 0 (1 - (freq_distance : ℚ) / 22)
        let normalized_rssi : ℚ := max 0 (min 100 ((rssi + 90) * 100 / 60))
        overlap_percentage * normalized_rssi

/-- A Wi-Fi access point as consumed by `score_zigbee_channel`: the `"channel"`
key (absent ⇒ the AP is skipped) and the `"rssi"` key (absent ⇒ default −90). -/
structure WifiAP where
  channel : Option Int
  rssi : Option ℚ
deriving DecidableEq

/-- `score_zigbee_channel(zigbee_channel, wifi_aps)`. -/
def score_zigbee_channel (zigbee_channel : Int) (wifi_aps : List WifiAP) : ℚ :=
  let total_interference := wifi_aps.foldl
    (fun acc ap =>
      match ap.channel with
      | none => acc
      | some wifi_channel =>
          acc + calculate_overlap_factor wifi_channel zigbee_channel (ap.rssi.getD (-90)))
    0
  min 100 total_interference

/-- Result of `recommend_zigbee_channel`; the display-only `explanation` string
is not modelled. -/
structure ChannelRecommendation where
  recommended_channel : Int
  scores : List (Int × ℚ)
deriving DecidableEq

/-- Python's `min(items, key=snd)`: first element attaining the minimum. -/
def firstMinBySnd (b : Int × ℚ) : List (Int × ℚ) → Int × ℚ
  | [] => b
  | x :: xs => firstMinBySnd (if x.2 < b.2 then x else b) xs

/-- `recommend_zigbee_channel(wifi_aps)` (without the explanation text). -/
def recommend_zigbee_channel (wifi_aps : List WifiAP) : ChannelRecommendation :=
  if wifi_aps.isEmpty then
    { recommended_channel := 25, scores := [(11, 0), (15, 0), (20, 0), (25, 0)] }
  else
    let scores := recommendedZigbeeChannels.map
      (fun ch => (ch, score_zigbee_channel ch wifi_aps))
    let best := match scores with
      | [] => ((25 : Int), (0 : ℚ))
      | x :: xs => firstMinBySnd x xs
    { recommended_channel := best.1, scores := scores }

/-! ## Dynamic Python values

The analytics code operates on `dict[str, Any]` values; we embed the dynamic
value universe, with Python floats as exact rationals. -/

/-- A dynamic Python value as it occurs in device records and history. -/
inductive PyVal where
  | none
  | bool (b : Bool)
  | int (n : Int)
  | float (q : ℚ)
  | str (s : String)
  | list (xs : List PyVal)
  | dict (entries : List (String × PyVal))

/-- Exception kinds distinguished by the embedded code's `except` clauses. -/
inductive PyErr where
  | typeError
  | valueError
  | keyError
  | attributeError
deriving DecidableEq, Repr

/-- First-match lookup in an association list (Python dicts have unique keys). -/
def lookupKey : List (String × PyVal) → String → Option PyVal
  | [], _ => Option.none
  | (k, v) :: rest, key => if k = key then some v else lookupKey rest key

/-- `d[key] = v`: replace the first binding of `key`, else append (Python dict
assignment preserves insertion order of existing keys and appends new ones). -/
def setKey : List (String × PyVal) → String → PyVal → List (String × PyVal)
  | [], key, v => [(key, v)]
  | (k, w) :: rest, key, v =>
      if k = key then (key, v) :: rest else (k, w) :: setKey rest key v

/-- `v.get(key, dflt)`: only dicts have `.get`; anything else raises
`AttributeError` (which the analytics `except` clauses do not catch). -/
def pyGetD (v : PyVal) (key : String) (dflt : PyVal) : Except PyErr PyVal :=
  match v with
  | .dict xs => .ok ((lookupKey xs key).getD dflt)
  | _ => .error .attributeError

/-- `v.get(key)` (default `None`). -/
def pyGet (v : PyVal) (key : String) : Except PyErr PyVal :=
  pyGetD v key .none

/-- Python truthiness. -/
def pyTruthy : PyVal → Bool
  | .none => false
  | .bool b => b
  | .int n => n ≠ 0
  | .float q => q ≠ 0
  | .str s => s ≠ ""
  | .list xs => !xs.isEmpty
  | .dict xs => !xs.isEmpty

/-- Numeric view used by Python's cross-type ordering (`bool`/`int`/`float`). -/
def toNumber : PyVal → Option ℚ
  | .bool b => some (if b then 1 else 0)
  | .int n => some n
  | .float q => some q
  | _ => Option.none

/-- Python `a < b` on the fragment that can arise as raw `"timestamp"` values
in sort keys: numbers compare numerically, strings lexicographically by code
point, and every other combination raises `TypeError` (as Python does for,
e.g., `str < int` or anything involving `None` or dicts; elementwise list
comparison is outside the modelled fragment and also mapped to `TypeError`). -/
def pyLt (a b : PyVal) : Except PyErr Bool :=
  match toNumber a, toNumber b with
  | some x, some y => .ok (decide (x < y))
  | _, _ =>
    match a, b with
    | .str s, .str t => .ok (decide (s < t))
    | _, _ => .error .typeError

/-- `try: act except caughtErrs: use fallback` for a single expression. -/
def pyTry (caughtErrs : List PyErr) (act : Except PyErr α) (fallback : α) :
    Except PyErr α :=
  match act with
  | .ok a => .ok a
  | .error e => if e ∈ caughtErrs then .ok fallback else .error e

/-- Stable insertion of `a` into `bs` under a fallible strict comparator:
`a` goes before the first element it compares strictly below, hence after
all elements equal to it (stable, like Python's sort). -/
def insertSortedM (lt : α → α → Except PyErr Bool) (a : α) :
    List α → Except PyErr (List α)
  | [] => .ok [a]
  | b :: bs =>
      match lt a b with
      | .error e => .error e
      | .ok true => .ok (a :: b :: bs)
      | .ok false =>
          match insertSortedM lt a bs with
          | .error e => .error e
          | .ok rest => .ok (b :: rest)

/-- Left-to-right insertion pass of the stable sort. -/
def insortAllM (lt : α → α → Except PyErr Bool) :
    List α → List α → Except PyErr (List α)
  | [], acc => .ok acc
  | x :: xs, acc =>
      match insertSortedM lt x acc with
      | .error e => .error e
      | .ok acc2 => insortAllM lt xs acc2

/-- Stable sort under a fallible comparator; on inputs whose keys are totally
preordered and error-free it produces the same list as Python's stable
`sorted`, and it raises exactly when some performed comparison raises. -/
def sortM (lt : α → α → Except PyErr Bool) (l : List α) : Except PyErr (List α) :=
  insortAllM lt l []

/-- Pure counterpart of `insertSortedM` for an infallible comparator. -/
def insertSorted (lt : α → α → Bool) (a : α) : List α → List α
  | [] => [a]
  | b :: bs => if lt a b then a :: b :: bs else b :: insertSorted lt a bs

/-- Pure counterpart of `insortAllM`. -/
def insortAll (lt : α → α → Bool) : List α → List α → List α
  | [], acc => acc
  | x :: xs, acc => insortAll lt xs (insertSorted lt x acc)

/-- Pure counterpart of `sortM`. -/
def insortList (lt : α → α → Bool) (l : List α) : List α :=
  insortAll lt l []

/-! ### Timestamp parsing (`datetime.fromisoformat`) and formatting

Timestamps are modelled as rational seconds on the proleptic Gregorian
calendar (the difference of two parsed timestamps equals Python's
`(a - b).total_seconds()`).  The modelled fragment of `fromisoformat` is
`YYYY-MM-DD[<sep>HH:MM[:SS[.f…]]]` (naive datetimes); strings outside the
fragment — including timezone-suffixed ones, which in the analytics code
always end in a caught `TypeError` on aware/naive comparison — are mapped
to the same caught-error outcome as an unparseable string. -/

/-- Digits of a nonempty all-digit character list, as a number. -/
def digitsToNat : List Char → Option Nat
  | [] => Option.none
  | cs =>
      if cs.all Char.isDigit then
        some (cs.foldl (fun a c => 10 * a + (c.toNat - '0'.toNat)) 0)
      else Option.none

/-- Gregorian leap year. -/
def isLeapYear (y : Nat) : Bool := (y % 4 = 0 && y % 100 ≠ 0) || y % 400 = 0

/-- Days in a month (1–12). -/
def daysInMonth (y m : Nat) : Nat :=
  match m with
  | 1 => 31 | 2 => if isLeapYear y then 29 else 28 | 3 => 31
  | 4 => 30 | 5 => 31 | 6 => 30 | 7 => 31 | 8 => 31
  | 9 => 30 | 10 => 31 | 11 => 30 | 12 => 31
  | _ => 0

/-- Days in all years strictly before year `y` (year 1 ↦ 0). -/
def daysBeforeYear (y : Nat) : Nat :=
  (y - 1) * 365 + (y - 1) / 4 - (y - 1) / 100 + (y - 1) / 400

/-- Days in the months of year `y` strictly before month `m`. -/
def daysBeforeMonth (y m : Nat) : Nat :=
  (List.range (m - 1)).foldl (fun a i => a + daysInMonth y (i + 1)) 0

/-- Day count of a civil date (year 1, Jan 1 ↦ 0). -/
def civilToDays (y m d : Nat) : Nat :=
  daysBeforeYear y + daysBeforeMonth y m + (d - 1)

/-- Parse exactly `YYYY-MM-DD` (zero padded, as `fromisoformat` requires)
into a day count, validating ranges like `datetime` does. -/
def parseDateChars : List Char → Option Nat
  | [y1, y2, y3, y4, '-', m1, m2, '-', d1, d2] => do
      let y ← digitsToNat [y1, y2, y3, y4]
      let m ← digitsToNat [m1, m2]
      let d ← digitsToNat [d1, d2]
      if 1 ≤ y ∧ y ≤ 9999 ∧ 1 ≤ m ∧ m ≤ 12 ∧ 1 ≤ d ∧ d ≤ daysInMonth y m then
        some (civilToDays y m d)
      else Option.none
  | _ => Option.none

/-- Parse `HH:MM[:SS[.f…]]` into seconds-of-day. -/
def parseTimeChars (cs : List Char) : Option ℚ :=
  match cs with
  | [h1, h2, ':', m1, m2] => do
      let h ← digitsToNat [h1, h2]
      let m ← digitsToNat [m1, m2]
      if h ≤ 23 ∧ m ≤ 59 then some ((h * 3600 + m * 60 : Nat) : ℚ) else Option.none
  | h1 :: h2 :: ':' :: m1 :: m2 :: ':' :: s1 :: s2 :: rest => do
      let h ← digitsToNat [h1, h2]
      let m ← digitsToNat [m1, m2]
      let s ← digitsToNat [s1, s2]
      if h ≤ 23 ∧ m ≤ 59 ∧ s ≤ 59 then
        match rest with
        | [] => some ((h * 3600 + m * 60 + s : Nat) : ℚ)
        | '.' :: fs => do
            let f ← digitsToNat fs
            if 1 ≤ fs.length ∧ fs.length ≤ 6 then
              some (((h * 3600 + m * 60 + s : Nat) : ℚ) +
                (f : ℚ) / ((10 : ℚ) ^ fs.length))
            else Option.none
        | _ => Option.none
      else Option.none
  | _ => Option.none

/-- `datetime.fromisoformat` on the modelled fragment, as rational seconds. -/
def fromIso (s : String) : Option ℚ :=
  let cs := s.toList
  if cs.length = 10 then
    (parseDateChars cs).map (fun d => ((d * 86400 : Nat) : ℚ))
  else if 12 ≤ cs.length then do
    let d ← parseDateChars (cs.take 10)
    let t ← parseTimeChars (cs.drop 11)
    pure (((d * 86400 : Nat) : ℚ) + t)
  else Option.none

/-- `datetime.fromisoformat` applied to a dynamic value: non-strings raise
`TypeError`, unparseable strings raise `ValueError`. -/
def pyFromIso (v : PyVal) : Except PyErr ℚ :=
  match v with
  | .str s =>
      match fromIso s with
      | some q => .ok q
      | Option.none => .error .valueError
  | _ => .error .typeError

/-- Left-pad a numeral with zeros. -/
def padNum (n : Nat) (width : Nat) : String :=
  let s := toString n
  String.mk (List.replicate (width - s.length) '0') ++ s

/-- Inverse of `civilToDays`: scan forward over years/months (the values used
in witnesses are small). -/
def daysToCivil (days : Nat) : Nat × Nat × Nat :=
  let y := (List.range 9999).foldl
    (fun acc i => if daysBeforeYear (i + 2) ≤ days then i + 2 else acc) 1
  let rest := days - daysBeforeYear y
  let m := (List.range 12).foldl
    (fun acc i => if daysBeforeMonth y (i + 2) ≤ rest then i + 2 else acc) 1
  let d := rest - daysBeforeMonth y m + 1
  (y, m, d)

/-- `datetime.isoformat()` for whole-second instants (`now` values used in the
store are whole seconds; Python would append `.ffffff` only for nonzero
microseconds). -/
def isoFormat (q : ℚ) : String :=
  let total : Nat := (⌊q⌋).toNat
  let days := total / 86400
  let sod := total % 86400
  let c := daysToCivil days
  padNum c.1 4 ++ "-" ++ padNum c.2.1 2 ++ "-" ++ padNum c.2.2 2 ++ "T" ++
    padNum (sod / 3600) 2 ++ ":" ++ padNum (sod % 3600 / 60) 2 ++ ":" ++
    padNum (sod % 60) 2

/-- `float(v)`: bools and numbers convert; strings parse the decimal-literal
fragment `[+|-]digits[.digits]` (`ValueError` otherwise, which is what every
caller catches); `None`/lists/dicts raise `TypeError`. -/
def parseUnsignedFloat (cs : List Char) : Option ℚ :=
  let ip := cs.takeWhile Char.isDigit
  let rest := cs.dropWhile Char.isDigit
  match rest with
  | [] => (digitsToNat ip).map (fun n => (n : ℚ))
  | '.' :: fp =>
      if fp.all Char.isDigit ∧ (ip ≠ [] ∨ fp ≠ []) then
        some (((ip.foldl (fun a c => 10 * a + (c.toNat - '0'.toNat)) 0 : Nat) : ℚ) +
          ((fp.foldl (fun a c => 10 * a + (c.toNat - '0'.toNat)) 0 : Nat) : ℚ) /
            ((10 : ℚ) ^ fp.length))
      else Option.none
  | _ => Option.none

/-- String payload of `float(str)` parsing. -/
def parseFloatStr (s : String) : Option ℚ :=
  match s.toList with
  | '+' :: rest => parseUnsignedFloat rest
  | '-' :: rest => (parseUnsignedFloat rest).map Neg.neg
  | cs => parseUnsignedFloat cs

/-- `float(v)`. -/
def pyFloat (v : PyVal) : Except PyErr ℚ :=
  match v with
  | .bool b => .ok (if b then 1 else 0)
  | .int n => .ok (n : ℚ)
  | .float q => .ok q
  | .str s =>
      match parseFloatStr s with
      | some q => .ok q
      | Option.none => .error .valueError
  | _ => .error .typeError

/-- Round half to even (Python's `round` on exact values). -/
def roundHalfEven (x : ℚ) : ℤ :=
  let f := ⌊x⌋
  let r := x - (f : ℚ)
  if r < 1 / 2 then f
  else if 1 / 2 < r then f + 1
  else if f % 2 = 0 then f else f + 1

/-- Python `round(x, ndigits)` on exact rationals. -/
def pyRound (x : ℚ) (ndigits : Nat) : ℚ :=
  ((roundHalfEven (x * (10 : ℚ) ^ ndigits) : ℤ) : ℚ) / (10 : ℚ) ^ ndigits

/-! ## Device analytics engine (`analytics.py`)

`datetime.now()` is threaded as the parameter `now` (rational seconds), and
the engine configuration appears as explicit parameters. -/

/-- The per-entry caught exceptions of the history loops:
`except (ValueError, TypeError, KeyError): continue`. -/
def loopCaught : List PyErr := [.valueError, .typeError, .keyError]

/-- The sort-key extraction of `sorted(device_history, key=lambda x:
x.get("timestamp", ""))`: Python's `sorted` first computes every key in list
order (raising `AttributeError` on a non-dict entry), then compares keys. -/
def decorateTimestamps : List PyVal → Except PyErr (List (PyVal × PyVal))
  | [] => .ok []
  | e :: rest =>
      match pyGetD e "timestamp" (.str "") with
      | .error err => .error err
      | .ok k =>
          match decorateTimestamps rest with
          | .error err => .error err
          | .ok ds => .ok ((k, e) :: ds)

/-- One iteration of the `compute_reconnect_rate` history walk (the body of
the `try`). -/
def rrBody (window_start : ℚ) (st : Nat × Option ℚ) (entry : PyVal) :
    Except PyErr (Nat × Option ℚ) :=
  match pyGet entry "timestamp" with
  | .error e => .error e
  | .ok ts =>
      if pyTruthy ts = false then .ok st
      else
        match pyFromIso ts with
        | .error e => .error e
        | .ok t =>
            if t < window_start then .ok st
            else
              match st.2 with
              | some p => .ok ((if 300 < t - p then st.1 + 1 else st.1), some t)
              | Option.none => .ok (st.1, some t)

/-- The `compute_reconnect_rate` history walk with its per-entry
`except (ValueError, TypeError, KeyError): continue`. -/
def rrLoop (window_start : ℚ) (st : Nat × Option ℚ) :
    List PyVal → Except PyErr (Nat × Option ℚ)
  | [] => .ok st
  | entry :: rest =>
      match pyTry loopCaught (rrBody window_start st entry) st with
      | .error e => .error e
      | .ok st2 => rrLoop window_start st2 rest

/-- `DeviceAnalytics.compute_reconnect_rate(device_history, window_hours)`.
The guard `not device_history or len(device_history) < 2` collapses to a
length test; the sort decorates each entry with `x.get("timestamp", "")`
(raising `AttributeError` on non-dict entries) and compares raw keys. -/
def compute_reconnect_rate (now : ℚ) (device_history : List PyVal)
    (window_hours : Int) : Except PyErr ℚ :=
  if device_history.length < 2 then .ok 0
  else
    let window_start : ℚ := now - (window_hours : ℚ) * 3600
    match decorateTimestamps device_history with
    | .error e => .error e
    | .ok decorated =>
        match sortM (fun a b => pyLt a.1 b.1) decorated with
        | .error e => .error e
        | .ok sortedPairs =>
            match rrLoop window_start (0, Option.none)
                (sortedPairs.map (fun p => p.2)) with
            | .error e => .error e
            | .ok res =>
                if 0 < window_hours then .ok ((res.1 : ℚ) / (window_hours : ℚ))
                else .ok 0

/-- Python's `if battery is not None:` guard as an option view. -/
def nonNoneVal (v : PyVal) : Option PyVal :=
  match v with
  | PyVal.none => Option.none
  | w => some w

/-- One iteration of the `compute_battery_trend` reading-collection loop
(the body of the outer `try`; the inner `try` around `float(battery)` catches
only `ValueError`/`TypeError`). -/
def btBody (min_battery_for_trend window_start : ℚ) (acc : List (ℚ × ℚ))
    (entry : PyVal) : Except PyErr (List (ℚ × ℚ)) :=
  match pyGet entry "timestamp" with
  | .error e => .error e
  | .ok ts =>
      if pyTruthy ts = false then .ok acc
      else
        match pyFromIso ts with
        | .error e => .error e
        | .ok t =>
            if t < window_start then .ok acc
            else
              match pyGetD entry "metrics" (.dict []) with
              | .error e => .error e
              | .ok metrics =>
                  match pyGet metrics "battery" with
                  | .error e => .error e
                  | .ok b1 =>
                      match pyGet metrics "battery_percent" with
                      | .error e => .error e
                      | .ok b2 =>
                          -- `battery = metrics.get("battery") or
                          --  metrics.get("battery_percent")`
                          match nonNoneVal (if pyTruthy b1 then b1 else b2) with
                          | Option.none => .ok acc
                          | some bv =>
                              pyTry [.valueError, .typeError]
                                (match pyFloat bv with
                                 | .error e => .error e
                                 | .ok battery_val =>
                                     if min_battery_for_trend ≤ battery_val then
                                       .ok (acc ++ [(battery_val, t)])
                                     else .ok acc) acc

/-- The `compute_battery_trend` loop with its per-entry
`except (ValueError, TypeError, KeyError): continue`. -/
def btLoop (min_battery_for_trend window_start : ℚ) (acc : List (ℚ × ℚ)) :
    List PyVal → Except PyErr (List (ℚ × ℚ))
  | [] => .ok acc
  | entry :: rest =>
      match pyTry loopCaught
          (btBody min_battery_for_trend window_start acc entry) acc with
      | .error e => .error e
      | .ok acc2 => btLoop min_battery_for_trend window_start acc2 rest

/-- The least-squares part of `compute_battery_trend` on the time-sorted
readings (pairs `(battery, timestamp)`); the final division is guarded by
`sum_t2 == 0`, which (times being measured from the first sorted reading)
makes the denominator nonzero whenever the guard passes, so Python's
`ZeroDivisionError` is unreachable. -/
def btSlope : List (ℚ × ℚ) → Option ℚ
  | [] => Option.none
  | r0 :: rest =>
      let srt := r0 :: rest
      let n : ℚ := srt.length
      let sum_t := (srt.map (fun r => (r.2 - r0.2) / 3600)).sum
      let sum_b := (srt.map (fun r => r.1)).sum
      let sum_tb := (srt.map (fun r => (r.2 - r0.2) / 3600 * r.1)).sum
      let sum_t2 := (srt.map (fun r => ((r.2 - r0.2) / 3600) ^ 2)).sum
      if sum_t2 = 0 then Option.none
      else
        some (pyRound ((n * sum_tb - sum_t * sum_b) / (n * sum_t2 - sum_t ^ 2)) 2)

/-- `DeviceAnalytics.compute_battery_trend(device_history, window_hours)`. -/
def compute_battery_trend (min_battery_for_trend : ℚ) (now : ℚ)
    (device_history : List PyVal) (window_hours : Int) :
    Except PyErr (Option ℚ) :=
  if device_history.isEmpty then .ok Option.none
  else
    match btLoop min_battery_for_trend (now - (window_hours : ℚ) * 3600) []
        device_history with
    | .error e => .error e
    | .ok battery_readings =>
        if battery_readings.length < 2 then .ok Option.none
        else .ok (btSlope (insortList (fun a b => decide (a.2 < b.2))
          battery_readings))

/-- The link-quality sub-score: `min(100, float(lq)/255*100)`, neutral 50 on
missing or unparseable values. -/
def lqScoreOf (link_quality : PyVal) : Except PyErr ℚ :=
  match link_quality with
  | PyVal.none => .ok 50
  | lv =>
      pyTry [.valueError, .typeError]
        (match pyFloat lv with
         | .error e => .error e
         | .ok link_val => .ok (min 100 (link_val / 255 * 100))) 50

/-- The battery sub-score: `max(0, min(100, float(battery)))`, neutral 50 on
missing or unparseable values. -/
def batScoreOf (battery : PyVal) : Except PyErr ℚ :=
  match battery with
  | PyVal.none => .ok 50
  | bv =>
      pyTry [.valueError, .typeError]
        (match pyFloat bv with
         | .error e => .error e
         | .ok battery_val => .ok (max 0 (min 100 battery_val))) 50

/-- The connectivity sub-score from `last_seen` recency: 100 below 300 s,
0 above 3600 s, linear in between; 50 when present but unparseable, 0 when
falsy/missing. -/
def connScoreOf (now : ℚ) (last_seen_str : PyVal) : Except PyErr ℚ :=
  if pyTruthy last_seen_str then
    pyTry [.valueError, .typeError]
      (match pyFromIso last_seen_str with
       | .error e => .error e
       | .ok last_seen =>
           let seconds_since_update := now - last_seen
           if seconds_since_update < 300 then .ok 100
           else if 3600 < seconds_since_update then .ok 0
           else .ok (100 - (seconds_since_update - 300) / 3300 * 100)) 50
  else .ok 0

/-- The reconnect-rate sub-score: 100 at rate ≤ 0, 0 at rate ≥ 10, linear
in between. -/
def rrScoreOf (reconnect_rate : ℚ) : ℚ :=
  if reconnect_rate ≤ 0 then 100
  else if 10 ≤ reconnect_rate then 0
  else 100 - reconnect_rate * 10

/-- `DeviceAnalytics.compute_health_score(device_data, device_history)`;
the weights are the default `{link_quality: 0.3, battery: 0.2,
reconnect_rate: 0.3, connectivity: 0.2}`. -/
def compute_health_score (window_hours : Int) (now : ℚ) (device_data : PyVal)
    (device_history : List PyVal) : Except PyErr ℚ :=
  match pyGetD device_data "metrics" (.dict []) with
  | .error e => .error e
  | .ok metrics =>
      match pyGet metrics "link_quality" with
      | .error e => .error e
      | .ok link_quality =>
          match pyGet metrics "battery" with
          | .error e => .error e
          | .ok battery =>
              match pyGet metrics "last_seen" with
              | .error e => .error e
              | .ok last_seen_str =>
                  match lqScoreOf link_quality with
                  | .error e => .error e
                  | .ok lqScore =>
                      match batScoreOf battery with
                      | .error e => .error e
                      | .ok batScore =>
                          match compute_reconnect_rate now device_history
                              window_hours with
                          | .error e => .error e
                          | .ok reconnect_rate =>
                              match connScoreOf now last_seen_str with
                              | .error e => .error e
                              | .ok connScore =>
                                  .ok (pyRound (max 0 (min 100
                                    (lqScore * (3 / 10) + batScore * (2 / 10) +
                                      rrScoreOf reconnect_rate * (3 / 10) +
                                      connScore * (2 / 10)))) 1)

/-- `DeviceAnalytics.check_battery_drain_warning(device_history, threshold)`. -/
def check_battery_drain_warning (min_battery_for_trend : ℚ) (threshold : ℚ)
    (now : ℚ) (device_history : List PyVal) : Except PyErr Bool :=
  match compute_battery_trend min_battery_for_trend now device_history 24 with
  | .error e => .error e
  | .ok Option.none => .ok false
  | .ok (some trend) => .ok (decide (trend < -threshold))

/-- `compute_reconnect_rate` applied to the dynamic value found under the
`"history"` key: the guard `not device_history or len(device_history) < 2`
returns 0.0 for falsy values and short sequences, `len` raises `TypeError`
on truthy numbers, and iterating a `str`/`dict` of length ≥ 2 hits
`x.get(...)` on its `str` elements in the sort-key lambda (`AttributeError`). -/
def reconnectRateOfHistoryVal (now : ℚ) (historyVal : PyVal)
    (window_hours : Int) : Except PyErr ℚ :=
  match historyVal with
  | .list l => compute_reconnect_rate now l window_hours
  | .str s => if s.length < 2 then .ok 0 else .error .attributeError
  | .dict m => if m.length < 2 then .ok 0 else .error .attributeError
  | v => if pyTruthy v then .error .typeError else .ok 0

/-- `DeviceAnalytics.check_connectivity_warning(device_data, threshold)`. -/
def check_connectivity_warning (window_hours : Int) (now : ℚ)
    (device_data : PyVal) (reconnect_rate_threshold : ℚ) :
    Except PyErr Bool :=
  match pyGetD device_data "history" (.list []) with
  | .error e => .error e
  | .ok device_history =>
      match reconnectRateOfHistoryVal now device_history window_hours with
      | .error e => .error e
      | .ok reconnect_rate =>
          if reconnect_rate_threshold ≤ reconnect_rate then .ok true
          else
            match pyGetD device_data "metrics" (.dict []) with
            | .error e => .error e
            | .ok metrics =>
                match pyGet metrics "last_seen" with
                | .error e => .error e
                | .ok last_seen_str =>
                    if pyTruthy last_seen_str then
                      pyTry [.valueError, .typeError]
                        (match pyFromIso last_seen_str with
                         | .error e => .error e
                         | .ok last_seen =>
                             .ok (decide (3600 < now - last_seen))) false
                    else .ok false

/-! ### Well-formedness predicates and claim-side reference definitions

The spec's claims quantify over history entries; the amended claims restrict
to entries on which the Python cannot raise: dict entries whose raw
`"timestamp"` value (when present) is a string and whose `"metrics"` value
(when present) is a dict. -/

/-- Entry is a dict whose `"timestamp"` value, if present, is a string. -/
def tsWF (e : PyVal) : Bool :=
  match e with
  | .dict d =>
      match lookupKey d "timestamp" with
      | Option.none => true
      | some (.str _) => true
      | some _ => false
  | _ => false

/-- Entry is a dict whose `"metrics"` value, if present, is a dict. -/
def entryMetricsWF (e : PyVal) : Bool :=
  match e with
  | .dict d =>
      match lookupKey d "metrics" with
      | Option.none => true
      | some (.dict _) => true
      | some _ => false
  | _ => false

/-- Device-data dict whose `"metrics"` value, if present, is a dict. -/
def deviceWF (v : PyVal) : Bool :=
  match v with
  | .dict d =>
      match lookupKey d "metrics" with
      | Option.none => true
      | some (.dict _) => true
      | some _ => false
  | _ => false

/-- The raw sort key `x.get("timestamp", "")` of a (dict) entry. -/
def rawKeyDec (e : PyVal) : PyVal :=
  match e with
  | .dict d => (lookupKey d "timestamp").getD (.str "")
  | _ => .str ""

/-- View a raw key as the string it is under `tsWF`. -/
def keyStr : PyVal → String
  | .str s => s
  | _ => ""

/-- The timestamp an entry contributes to the walk: present, truthy (i.e.
nonempty string) and parseable; everything else is skipped. -/
def parsedTs (e : PyVal) : Option ℚ :=
  match e with
  | .dict d =>
      match (lookupKey d "timestamp").getD PyVal.none with
      | .str s => if s = "" then Option.none else fromIso s
      | _ => Option.none
  | _ => Option.none

/-- The in-window timestamps of the entries, in list order. -/
def keptTimestamps (window_start : ℚ) (l : List PyVal) : List ℚ :=
  l.filterMap (fun e =>
    (parsedTs e).bind (fun t => if t < window_start then Option.none else some t))

/-- Number of adjacent pairs with gap > 300 s. -/
def countGaps : List ℚ → Nat
  | t1 :: t2 :: rest => (if 300 < t2 - t1 then 1 else 0) + countGaps (t2 :: rest)
  | _ => 0

/-- The history in the order `sorted(history, key=lambda x:
x.get("timestamp", ""))` produces: stably sorted by the RAW string key. -/
def sortedByRawTimestamp (history : List PyVal) : List PyVal :=
  (insortList (fun a b : PyVal × PyVal => decide (keyStr a.1 < keyStr b.1))
    (history.map (fun e => (rawKeyDec e, e)))).map (fun p => p.2)

/-- The reconnect rate the code computes, as a pure function (amended C3):
guards first, then walk the RAW-KEY-sorted entries, keep in-window parseable
timestamps, count gaps > 300 s, divide by the window. -/
def spec_reconnect_rate (now : ℚ) (history : List PyVal)
    (window_hours : Int) : ℚ :=
  if history.length < 2 then 0
  else if window_hours ≤ 0 then 0
  else
    (countGaps (keptTimestamps (now - (window_hours : ℚ) * 3600)
      (sortedByRawTimestamp history)) : ℚ) / (window_hours : ℚ)

/-- Pure form of one step of the reconnect-rate walk on a well-formed entry. -/
def rrStep (window_start : ℚ) (st : Nat × Option ℚ) (e : PyVal) :
    Nat × Option ℚ :=
  match parsedTs e with
  | Option.none => st
  | some t =>
      if t < window_start then st
      else
        match st.2 with
        | some p => ((if 300 < t - p then st.1 + 1 else st.1), some t)
        | Option.none => (st.1, some t)

/-- Pure form of the whole reconnect-rate walk. -/
def rrFold (window_start : ℚ) (st : Nat × Option ℚ) : List PyVal → Nat × Option ℚ
  | [] => st
  | e :: rest => rrFold window_start (rrStep window_start st e) rest

/-- Prepend the walk's remembered previous timestamp, when there is one. -/
def optCons : Option ℚ → List ℚ → List ℚ
  | some p, l => p :: l
  | Option.none, l => l

/-- Pure form of the battery reading one history entry contributes (if any):
the `(battery, timestamp)` pair kept by `compute_battery_trend`'s loop. -/
def batteryReading (min_battery_for_trend window_start : ℚ) (e : PyVal) :
    Option (ℚ × ℚ) :=
  match pyGet e "timestamp" with
  | .error _ => Option.none
  | .ok ts =>
      if pyTruthy ts = false then Option.none
      else
        match pyFromIso ts with
        | .error _ => Option.none
        | .ok t =>
            if t < window_start then Option.none
            else
              match pyGetD e "metrics" (.dict []) with
              | .error _ => Option.none
              | .ok metrics =>
                  match pyGet metrics "battery" with
                  | .error _ => Option.none
                  | .ok b1 =>
                      match pyGet metrics "battery_percent" with
                      | .error _ => Option.none
                      | .ok b2 =>
                          match nonNoneVal (if pyTruthy b1 then b1 else b2) with
                          | Option.none => Option.none
                          | some bv =>
                              match pyFloat bv with
                              | .ok v =>
                                  if min_battery_for_trend ≤ v then some (v, t)
                                  else Option.none
                              | .error _ => Option.none

/-- Sum over all ordered pairs (earlier, later) of `(Δtime) * (Δbattery)`;
the numerator (and, on the diagonal, denominator) of the OLS slope. -/
def pairSum : List (ℚ × ℚ) → ℚ
  | [] => 0
  | x :: xs => (xs.map (fun y => (y.2 - x.2) * (y.1 - x.1))).sum + pairSum xs

/-- The reconnect rate exactly as claim C3 words it: sort the entries
ascending BY TIMESTAMP (chronologically), discard entries older than
`now − windowHours`, count adjacent gaps > 300 s, divide by the window. -/
def claim_reconnect_rate_chrono (now : ℚ) (history : List PyVal)
    (window_hours : Int) : ℚ :=
  if history.length < 2 then 0
  else if window_hours ≤ 0 then 0
  else
    let sortedTs := insortList (fun a b : ℚ => decide (a < b))
      (history.filterMap parsedTs)
    (countGaps (sortedTs.filter
      (fun t => decide (now - (window_hours : ℚ) * 3600 ≤ t))) : ℚ) /
      (window_hours : ℚ)

/-! ## Topology builder (`topology.py`) -/

/-- A node of the topology graph (`node` dict in `build_topology`). -/
structure TopoNode where
  id : String
  label : PyVal
  type : String
  link_quality : PyVal
  battery : PyVal
  last_seen : PyVal
  health_score : PyVal
  analytics : PyVal

/-- An edge of the topology graph; `src` and `dst` model the `"from"` and
`"to"` keys. -/
structure TopoEdge where
  src : PyVal
  dst : String
  link_quality : PyVal

/-- The value returned by `build_topology`. -/
structure Topology where
  nodes : List TopoNode
  edges : List TopoEdge
  device_count : Nat
  coordinator_count : Nat
  router_count : Nat
  end_device_count : Nat

/-- `node_type` classification: the last message's `"type"` field compared
against `"Router"`/`"Coordinator"` (Python `==` never raises; any other
value falls through to `"end_device"`). -/
def classifyNodeType (t : PyVal) : String :=
  match t with
  | .str s =>
      if s = "Router" then "router"
      else if s = "Coordinator" then "coordinator"
      else "end_device"
  | _ => "end_device"

/-- Per-device body of the `build_topology` loop: build the node and the
optional `parent_ieee` edge. -/
def buildDeviceNode (device_id : String) (device_data : PyVal) :
    Except PyErr (TopoNode × Option TopoEdge) := do
  let metrics ← pyGetD device_data "metrics" (.dict [])
  let analytics_metrics ← pyGetD device_data "analytics_metrics" (.dict [])
  let last_message ← pyGetD metrics "last_message" (.dict [])
  let t ← pyGetD last_message "type" (.str "end_device")
  let node_type := classifyNodeType t
  let label ← pyGetD device_data "friendly_name" (.str device_id)
  let lq ← pyGet metrics "link_quality"
  let bat ← pyGet metrics "battery"
  let ls ← pyGet metrics "last_seen"
  let hs ← pyGet analytics_metrics "health_score"
  let rr ← pyGet analytics_metrics "reconnect_rate"
  let bt ← pyGet analytics_metrics "battery_trend"
  let bdw ← pyGet analytics_metrics "battery_drain_warning"
  let cw ← pyGet analytics_metrics "connectivity_warning"
  let node : TopoNode :=
    { id := device_id, label := label, type := node_type, link_quality := lq,
      battery := bat, last_seen := ls, health_score := hs,
      analytics := .dict [("reconnect_rate", rr), ("battery_trend", bt),
        ("battery_drain_warning", bdw), ("connectivity_warning", cw)] }
  let parent_ieee ← pyGetD last_message "parent_ieee" PyVal.none
  let lq0 ← pyGetD metrics "link_quality" (.int 0)
  let edge : Option TopoEdge :=
    if pyTruthy parent_ieee then
      some { src := parent_ieee, dst := device_id, link_quality := lq0 }
    else Option.none
  pure (node, edge)

/-- The main loop of `build_topology`: one node per device (skipping the
`"bridge"` entry) plus the collected edges, in iteration order. -/
def buildNodesEdges : List (String × PyVal) →
    Except PyErr (List TopoNode × List TopoEdge)
  | [] => .ok ([], [])
  | (device_id, device_data) :: rest =>
      if device_id = "bridge" then buildNodesEdges rest
      else do
        let (node, edge) ← buildDeviceNode device_id device_data
        let (ns, es) ← buildNodesEdges rest
        pure (node :: ns,
          match edge with
          | some e => e :: es
          | Option.none => es)

/-- The coordinator node synthesized when no device was classified as one. -/
def synthCoordinatorNode : TopoNode :=
  { id := "coordinator", label := .str "Coordinator", type := "coordinator",
    link_quality := .int 255, battery := PyVal.none, last_seen := PyVal.none,
    health_score := .float 100, analytics := .dict [] }

/-- The post-loop part of `build_topology`: synthesize the coordinator node
when none was classified, then assemble nodes, edges and the aggregate
counts (`sum(1 for n in nodes if …)`). -/
def assembleTopology (ns : List TopoNode) (es : List TopoEdge) : Topology :=
  let coordinator_found := ns.any (fun n => n.type == "coordinator")
  let nodes := if coordinator_found then ns else synthCoordinatorNode :: ns
  { nodes := nodes, edges := es,
    device_count := nodes.length,
    coordinator_count := (nodes.filter (fun n => n.type == "coordinator")).length,
    router_count := (nodes.filter (fun n => n.type == "router")).length,
    end_device_count := (nodes.filter (fun n => n.type == "end_device")).length }

/-- `build_topology(devices)`; the device map is an insertion-ordered
association list, as Python dict iteration is. -/
def build_topology (devices : List (String × PyVal)) : Except PyErr Topology :=
  (buildNodesEdges devices).map (fun p => assembleTopology p.1 p.2)

/-! ## Device state store (`coordinator.py`, `_process_device_update`)

The store's two dict-of-dicts (`self._devices`, `self._device_history`) are
modelled as maps from device id; `datetime.now()` is the per-update parameter
`now`, stored in the record as its `isoformat()` string. -/

/-- The mutable coordinator state relevant to device processing. -/
structure CoordState where
  devices : String → Option (List (String × PyVal))
  device_history : String → Option (List PyVal)

/-- The store at startup: no devices, no history. -/
def initialCoordState : CoordState :=
  ⟨fun _ => Option.none, fun _ => Option.none⟩

/-- The `metrics` dict built at the top of `_process_device_update`
(`data.get("linkquality", data.get("link_quality"))` etc.). -/
def mkMetrics (data : List (String × PyVal)) (now : ℚ) : List (String × PyVal) :=
  [("link_quality",
      (lookupKey data "linkquality").getD
        ((lookupKey data "link_quality").getD PyVal.none)),
   ("battery",
      (lookupKey data "battery").getD
        ((lookupKey data "battery_percent").getD PyVal.none)),
   ("voltage", (lookupKey data "voltage").getD PyVal.none),
   ("last_seen", .str (isoFormat now)),
   ("last_message", .dict data)]

/-- The record initialised for a device id not yet in `self._devices`. -/
def freshDeviceRecord (device_id : String) (data : List (String × PyVal))
    (now : ℚ) : List (String × PyVal) :=
  [("device_id", .str device_id),
   ("friendly_name", (lookupKey data "friendly_name").getD (.str device_id)),
   ("first_seen", .str (isoFormat now)),
   ("reconnect_count", .int 0),
   ("last_reconnect", PyVal.none)]

/-- Python `v + 1` on the stored `reconnect_count` (bools count as ints;
anything non-numeric raises `TypeError`, which the surrounding
`except (ValueError, TypeError)` turns into a no-op). -/
def pyAddOne (v : PyVal) : Option PyVal :=
  match v with
  | .int n => some (.int (n + 1))
  | .bool b => some (.int ((if b then 1 else 0) + 1))
  | .float q => some (.float (q + 1))
  | _ => Option.none

/-- The history entry appended by an update. -/
def mkHistEntry (data : List (String × PyVal)) (now : ℚ) : PyVal :=
  .dict [("timestamp", .str (isoFormat now)), ("metrics", .dict (mkMetrics data now))]

/-- Reconnect detection: compare `now` to the previous `metrics.last_seen`;
`try: parse; on a gap > 300 s set reconnect_count (from
`device.get("reconnect_count", 0) + 1`) then stamp last_reconnect;
except (ValueError, TypeError): pass`. -/
def reconnectParsed (base : List (String × PyVal)) (now : ℚ) :
    PyVal → List (String × PyVal)
  | .str s =>
      (match fromIso s with
       | some t =>
           if 300 < now - t then
             match pyAddOne ((lookupKey base "reconnect_count").getD (.int 0)) with
             | some cnt =>
                 setKey (setKey base "reconnect_count" cnt) "last_reconnect"
                   (.str (isoFormat now))
             | Option.none => base
           else base
       | Option.none => base)
  | _ => base

/-- See `reconnectParsed`; the surrounding truthiness check of
`if last_seen_str:`. -/
def reconnectAdjusted (base : List (String × PyVal)) (now : ℚ)
    (last_seen_val : PyVal) : List (String × PyVal) :=
  if pyTruthy last_seen_val then reconnectParsed base now last_seen_val
  else base

/-- The record after the reconnect check and the `metrics`, `last_update` and
`friendly_name` assignments. -/
def recordAfterUpdate (base : List (String × PyVal)) (device_id : String)
    (data : List (String × PyVal)) (now : ℚ) (last_seen_val : PyVal) :
    List (String × PyVal) :=
  let base2 := reconnectAdjusted base now last_seen_val
  let rec1 := setKey base2 "metrics" (.dict (mkMetrics data now))
  let rec2 := setKey rec1 "last_update" (.str (isoFormat now))
  setKey rec2 "friendly_name"
    ((lookupKey data "friendly_name").getD
      ((lookupKey rec2 "friendly_name").getD (.str device_id)))

/-- The record the update works on: the existing one, or the fresh one that
`_process_device_update` just inserted for an unseen device id. -/
def baseRecord (st : CoordState) (device_id : String)
    (data : List (String × PyVal)) (now : ℚ) : List (String × PyVal) :=
  match st.devices device_id with
  | Option.none => freshDeviceRecord device_id data now
  | some r => r

/-- `_process_device_update(device_id, data, topic)` (the topic argument is
unused by the code); raises only where the Python does: reading
`device.get("metrics", {}).get("last_seen")` on a record whose `"metrics"`
value is not a dict (`AttributeError`, not caught inside the method). -/
def process_device_update (st : CoordState) (device_id : String)
    (data : List (String × PyVal)) (now : ℚ) : Except PyErr CoordState :=
  let base := baseRecord st device_id data now
  (pyGet ((lookupKey base "metrics").getD (.dict [])) "last_seen").map
    (fun last_seen_val =>
      let rec3 := recordAfterUpdate base device_id data now last_seen_val
      let hist1 := ((st.device_history device_id).getD []) ++ [mkHistEntry data now]
      let hist2 :=
        if 1000 < hist1.length then hist1.drop (hist1.length - 1000) else hist1
      { devices := fun d => if d = device_id then some rec3 else st.devices d,
        device_history := fun d =>
          if d = device_id then some hist2 else st.device_history d })

/-- One inbound telemetry message. -/
structure UpdateMsg where
  device_id : String
  data : List (String × PyVal)
  now : ℚ

/-- The listener semantics: `_on_device_message` wraps the whole processing
in `except Exception`, so a raising update leaves the store unchanged. -/
def stepUpdate (st : CoordState) (u : UpdateMsg) : CoordState :=
  match process_device_update st u.device_id u.data u.now with
  | .ok st2 => st2
  | .error _ => st

/-- Feed a sequence of updates to the store. -/
def applyUpdates (l : List UpdateMsg) (st : CoordState) : CoordState :=
  l.foldl stepUpdate st

/-- The full append-log of history entries a device id would accumulate
without the 1000-entry cap. -/
def historyLog (l : List UpdateMsg) (d : String) : List PyVal :=
  (l.filter (fun u => u.device_id == d)).map (fun u => mkHistEntry u.data u.now)

/-- The last `n` elements of a list (`l[-n:]`). -/
def lastN (n : Nat) (l : List α) : List α :=
  l.drop (l.length - n)

/-- A record whose `"metrics"` value, when present, is a dict; on such
records `_process_device_update` cannot raise. -/
def metricsValOk (r : List (String × PyVal)) : Bool :=
  match lookupKey r "metrics" with
  | Option.none => true
  | some (PyVal.dict _) => true
  | some _ => false

/-- Well-formedness of the store that `_process_device_update` preserves:
every stored record's `"metrics"` value is a dict, and every stored history
is within the 1000-entry cap. -/
def StoreInv (st : CoordState) : Prop :=
  (∀ id r, st.devices id = some r → metricsValOk r = true) ∧
  (∀ d, ((st.device_history d).getD []).length ≤ 1000)

/-- Claim-side pure link-quality sub-score as the code computes it:
`min(100, lv/255*100)` with NO lower clamp, 50 on missing/unparseable. -/
def spec_lqScore (v : PyVal) : ℚ :=
  match v with
  | PyVal.none => 50
  | lv =>
      match pyFloat lv with
      | .ok x => min 100 (x / 255 * 100)
      | .error _ => 50

/-- Claim-side pure battery sub-score: `max(0, min(100, battery))`, 50 on
missing/unparseable. -/
def spec_batScore (v : PyVal) : ℚ :=
  match v with
  | PyVal.none => 50
  | bv =>
      match pyFloat bv with
      | .ok x => max 0 (min 100 x)
      | .error _ => 50

/-- Claim-side pure connectivity sub-score: 100 below 300 s of age, 0 above
3600 s, linear in between; 50 when `last_seen` is present (truthy) but
unparseable; 0 when falsy/missing. -/
def spec_connScore (now : ℚ) (v : PyVal) : ℚ :=
  if pyTruthy v then
    match pyFromIso v with
    | .ok last_seen =>
        if now - last_seen < 300 then 100
        else if 3600 < now - last_seen then 0
        else 100 - (now - last_seen - 300) / 3300 * 100
    | .error _ => 50
  else 0

/-- The claim's literal link-quality sub-score: `clamp(lv/255*100, 0, 100)`
WITH the lower clamp at 0. -/
def claim_lqScore (v : PyVal) : ℚ :=
  match v with
  | PyVal.none => 50
  | lv =>
      match pyFloat lv with
      | .ok x => max 0 (min 100 (x / 255 * 100))
      | .error _ => 50

/-- The metrics dict `device_data.get("metrics", {})` resolves to (empty when
the device is not a dict at all). -/
def metricsOfDevice (device_data : PyVal) : List (String × PyVal) :=
  match device_data with
  | .dict d =>
      (match (lookupKey d "metrics").getD (.dict []) with
       | .dict m => m
       | _ => [])
  | _ => []

/-- The weighted health formula shared by the claim's reading and the code's:
0.3·lq + 0.2·bat + 0.3·rr + 0.2·conn, clamped to [0,100], rounded to 1
decimal; parameterized by the link-quality sub-score in which the two
readings differ. -/
def healthFormula (lqS : PyVal → ℚ) (window_hours : Int) (now : ℚ)
    (device_data : PyVal) (device_history : List PyVal) : ℚ :=
  pyRound (max 0 (min 100
    (lqS ((lookupKey (metricsOfDevice device_data) "link_quality").getD .none) *
      (3 / 10) +
     spec_batScore ((lookupKey (metricsOfDevice device_data) "battery").getD
      .none) * (2 / 10) +
     rrScoreOf (spec_reconnect_rate now device_history window_hours) * (3 / 10) +
     spec_connScore now ((lookupKey (metricsOfDevice device_data)
      "last_seen").getD .none) * (2 / 10)))) 1

/-- The health score as the AMENDED claim words it: link-quality sub-score
`min(100, lv/255*100)` with NO lower clamp. -/
def spec_health_score (window_hours : Int) (now : ℚ) (device_data : PyVal)
    (device_history : List PyVal) : ℚ :=
  healthFormula spec_lqScore window_hours now device_data device_history

/-- The health score as claim C4 literally words it: link-quality sub-score
clamped to [0,100] from below as well. -/
def claim_health_score (window_hours : Int) (now : ℚ) (device_data : PyVal)
    (device_history : List PyVal) : ℚ :=
  healthFormula claim_lqScore window_hours now device_data device_history

/-- Device dict whose `"history"` value, if present, is a list of entries
with string-or-absent timestamps. -/
def deviceHistWF (v : PyVal) : Bool :=
  match v with
  | .dict d =>
      match lookupKey d "history" with
      | Option.none => true
      | some (.list l) => l.all tsWF
      | some _ => false
  | _ => false

/-! ## Theorems -/

/-- C6: `calculate_overlap_factor` returns 0 when either channel is outside its
frequency lookup table or the centre-frequency distance exceeds 22 MHz;
otherwise it returns `max 0 (1 − d/22)` times the RSSI normalised linearly from
[−90, −30] dBm to [0, 100] (clamped); the result always lies in [0, 100]. -/
theorem C6_overlap_factor_correct (w z : Int) (rssi : ℚ) :
    ((wifiChannelFreq w = none ∨ zigbeeChannelFreq z = none) →
      calculate_overlap_factor w z rssi = 0) ∧
    (∀ wf zf, wifiChannelFreq w = some wf → zigbeeChannelFreq z = some zf →
      ((|wf - zf| > 22 → calculate_overlap_factor w z rssi = 0) ∧
       (|wf - zf| ≤ 22 →
         calculate_overlap_factor w z rssi =
           max 0 (1 - ((|wf - zf| : Int) : ℚ) / 22) *
             max 0 (min 100 ((rssi + 90) * 100 / 60))))) ∧
    0 ≤ calculate_overlap_factor w z rssi ∧ calculate_overlap_factor w z rssi ≤ 100 := by
  refine ⟨?_, ?_, ?_⟩
  · rintro (h | h)
    · simp [calculate_overlap_factor, h]
    · cases hw : wifiChannelFreq w <;> simp [calculate_overlap_factor, hw, h]
  · intro wf zf hw hz
    constructor
    · intro hgt
      simp only [calculate_overlap_factor, hw, hz]
      rw [if_pos hgt]
    · intro hle
      simp only [calculate_overlap_factor, hw, hz]
      rw [if_neg (not_lt.mpr hle)]
  · cases hw : wifiChannelFreq w with
    | none => simp [calculate_overlap_factor, hw]
    | some wf =>
      cases hz : zigbeeChannelFreq z with
      | none => simp [calculate_overlap_factor, hw, hz]
      | some zf =>
        simp only [calculate_overlap_factor, hw, hz]
        split
        · norm_num
        · have hd : (0 : ℚ) ≤ ((|wf - zf| : Int) : ℚ) := by positivity
        -- product of two clamped nonnegative factors, bounded by 1 * 100
          have h1 : max 0 (1 - ((|wf - zf| : Int) : ℚ) / 22) ≤ 1 := by
            apply max_le (by norm_num)
            have : (0 : ℚ) ≤ ((|wf - zf| : Int) : ℚ) / 22 := by positivity
            linarith
          have h2 : max 0 (min 100 ((rssi + 90) * 100 / 60)) ≤ 100 :=
            max_le (by norm_num) (min_le_left _ _)
          have h3 : (0 : ℚ) ≤ max 0 (1 - ((|wf - zf| : Int) : ℚ) / 22) := le_max_left _ _
          have h4 : (0 : ℚ) ≤ max 0 (min 100 ((rssi + 90) * 100 / 60)) := le_max_left _ _
          constructor
          · exact mul_nonneg h3 h4
          · calc max 0 (1 - ((|wf - zf| : Int) : ℚ) / 22) *
                  max 0 (min 100 ((rssi + 90) * 100 / 60)) ≤ 1 * 100 :=
                  mul_le_mul h1 h2 h4 (by norm_num)
              _ = 100 := by norm_num

/-- Witness for C6 at the spec's own example: channel distance 63 MHz > 22 MHz
so `calculate_overlap_factor 1 25 (-50) = 0`. -/
theorem C6_overlap_factor_correct_witness :
    calculate_overlap_factor 1 25 (-50) = 0 :=
  ((C6_overlap_factor_correct 1 25 (-50)).2.1 2412 2475 rfl rfl).1 (by decide)

/-- C7: `recommend_zigbee_channel []` defaults to channel 25 with zero scores;
for every non-empty AP list the recommended channel comes from {11,15,20,25},
its score is minimal among the four candidates, and ties are broken in favour
of the earliest channel in the order 11, 15, 20, 25. -/
theorem C7_recommend_channel_correct :
    (recommend_zigbee_channel [] =
      { recommended_channel := 25, scores := [(11, 0), (15, 0), (20, 0), (25, 0)] }) ∧
    ∀ aps : List WifiAP, aps ≠ [] →
      (recommend_zigbee_channel aps).recommended_channel ∈ recommendedZigbeeChannels ∧
      (∀ c ∈ recommendedZigbeeChannels,
        score_zigbee_channel (recommend_zigbee_channel aps).recommended_channel aps ≤
          score_zigbee_channel c aps) ∧
      (∀ c ∈ recommendedZigbeeChannels,
        score_zigbee_channel c aps =
          score_zigbee_channel (recommend_zigbee_channel aps).recommended_channel aps →
        recommendedZigbeeChannels.indexOf
            (recommend_zigbee_channel aps).recommended_channel ≤
          recommendedZigbeeChannels.indexOf c) := by
  constructor
  · rfl
  · rintro (_ | ⟨a, as⟩) hne
    · exact absurd rfl hne
    · set q11 := score_zigbee_channel 11 (a :: as) with hq11
      set q15 := score_zigbee_channel 15 (a :: as) with hq15
      set q20 := score_zigbee_channel 20 (a :: as) with hq20
      set q25 := score_zigbee_channel 25 (a :: as) with hq25
      have hrec : recommend_zigbee_channel (a :: as) =
          { recommended_channel :=
              (firstMinBySnd (11, q11) [(15, q15), (20, q20), (25, q25)]).1,
            scores := [(11, q11), (15, q15), (20, q20), (25, q25)] } := by
        simp [recommend_zigbee_channel, recommendedZigbeeChannels]
      rw [hrec]
      simp only [firstMinBySnd]
      split_ifs with h1 h2 h3 <;>
        refine ⟨by simp [recommendedZigbeeChannels], ?_, ?_⟩ <;>
        · intro c hc
          fin_cases hc <;>
            simp_all [recommendedZigbeeChannels, List.indexOf, List.findIdx,
              List.findIdx.go] <;>
            linarith

/-- Witness for C7: applying the theorem at the one-AP list on Wi-Fi channel 1. -/
theorem C7_recommend_channel_correct_witness :
    (recommend_zigbee_channel [⟨some 1, some (-50)⟩]).recommended_channel ∈
      recommendedZigbeeChannels :=
  (C7_recommend_channel_correct.2 [⟨some 1, some (-50)⟩] (by simp)).1

/-- C8 counterexample: a device map with two devices whose last message
declares `type = "Coordinator"` yields a topology with TWO coordinator
nodes, refuting "exactly one node of type coordinator". -/
theorem C8_two_coordinators_counterexample :
    (build_topology
      [("c1", .dict [("metrics",
          .dict [("last_message", .dict [("type", .str "Coordinator")])])]),
       ("c2", .dict [("metrics",
          .dict [("last_message", .dict [("type", .str "Coordinator")])])])]).map
      (fun t => t.coordinator_count) = .ok 2 ∧ (2 : Nat) ≠ 1 :=
  ⟨rfl, by decide⟩

/-- C8 (amended): every successfully built topology contains AT LEAST one
coordinator node; when no device is classified as coordinator a synthetic
node (id "coordinator", label "Coordinator", link_quality 255, health_score
100, empty analytics) is inserted first in node order and is then the only
coordinator; `build_topology {}` yields exactly 1 node, 0 edges and counts
device 1 / coordinator 1 / router 0 / end_device 0. -/
theorem C8_coordinator_present :
    (build_topology [] =
      .ok ⟨[synthCoordinatorNode], [], 1, 1, 0, 0⟩) ∧
    (∀ devices topo, build_topology devices = .ok topo →
      1 ≤ topo.coordinator_count) ∧
    (∀ devices ns es topo, buildNodesEdges devices = .ok (ns, es) →
      build_topology devices = .ok topo →
      (∀ n ∈ ns, n.type ≠ "coordinator") →
      topo.nodes = synthCoordinatorNode :: ns ∧ topo.coordinator_count = 1) := by
  refine ⟨rfl, ?_, ?_⟩
  · intro devices topo h
    cases hb : buildNodesEdges devices with
    | error e => rw [build_topology, hb] at h; exact absurd h (by simp [Except.map])
    | ok p =>
      obtain ⟨ns, es⟩ := p
      rw [build_topology, hb] at h
      simp only [Except.map, Except.ok.injEq] at h
      subst h
      by_cases hany : ns.any (fun n => n.type == "coordinator")
      · simp only [assembleTopology, hany, if_true]
        obtain ⟨n, hn, hcoord⟩ := List.any_eq_true.mp hany
        have : n ∈ ns.filter (fun n => n.type == "coordinator") :=
          List.mem_filter.mpr ⟨hn, hcoord⟩
        have hpos := List.length_pos.mpr (List.ne_nil_of_mem this)
        simpa using hpos
      · simp only [Bool.not_eq_true] at hany
        simp [assembleTopology, hany, synthCoordinatorNode]
  · intro devices ns es topo hb h hnone
    rw [build_topology, hb] at h
    simp only [Except.map, Except.ok.injEq] at h
    subst h
    have hany : ns.any (fun n => n.type == "coordinator") = false := by
      rw [List.any_eq_false]
      intro n hn
      simpa using hnone n hn
    have hfil : ns.filter (fun n => n.type == "coordinator") = [] := by
      rw [List.filter_eq_nil_iff]
      intro n hn
      simpa using hnone n hn
    simp [assembleTopology, hany, hfil, synthCoordinatorNode]

/-- Witness for C8: the amended theorem applied to the empty device map. -/
theorem C8_coordinator_present_witness :
    1 ≤ (⟨[synthCoordinatorNode], [], 1, 1, 0, 0⟩ : Topology).coordinator_count :=
  C8_coordinator_present.2.1 [] ⟨[synthCoordinatorNode], [], 1, 1, 0, 0⟩ rfl

theorem lookupKey_setKey_self (l : List (String × PyVal)) (k : String) (v : PyVal) :
    lookupKey (setKey l k v) k = some v := by
  induction l with
  | nil => simp [setKey, lookupKey]
  | cons x xs ih =>
      obtain ⟨k1, v1⟩ := x
      by_cases h : k1 = k
      · simp [setKey, h, lookupKey]
      · simp [setKey, h, lookupKey, ih]

theorem lookupKey_setKey_ne (l : List (String × PyVal)) (k k' : String) (v : PyVal)
    (h : k' ≠ k) : lookupKey (setKey l k v) k' = lookupKey l k' := by
  induction l with
  | nil => simp [setKey, lookupKey, Ne.symm h]
  | cons x xs ih =>
      obtain ⟨k1, v1⟩ := x
      by_cases h1 : k1 = k
      · subst h1
        simp [setKey, lookupKey, Ne.symm h]
      · simp [setKey, h1, lookupKey, ih]

theorem lastN_eq_reverse (n : Nat) (l : List α) :
    lastN n l = (l.reverse.take n).reverse := by
  rw [lastN, List.reverse_take]
  simp

theorem lastN_append (n : Nat) (a b : List α) :
    lastN n (lastN n a ++ b) = lastN n (a ++ b) := by
  simp only [lastN_eq_reverse, List.reverse_append, List.reverse_reverse]
  rw [List.take_append_eq_append_take, List.take_append_eq_append_take,
    List.take_take]
  have hm : min (n - b.reverse.length) n = n - b.reverse.length := by omega
  rw [hm]

theorem lastN_of_le (n : Nat) (l : List α) (h : l.length ≤ n) : lastN n l = l := by
  rw [lastN, Nat.sub_eq_zero_of_le h, List.drop_zero]

theorem length_lastN (n : Nat) (l : List α) :
    (lastN n l).length = min l.length n := by
  rw [lastN, List.length_drop]
  omega

theorem trunc_eq_lastN (l : List PyVal) :
    (if 1000 < l.length then l.drop (l.length - 1000) else l) = lastN 1000 l := by
  split
  · rfl
  · rw [lastN, Nat.sub_eq_zero_of_le (by omega), List.drop_zero]

theorem lookup_reconnectAdjusted_ne (base : List (String × PyVal)) (now : ℚ)
    (lsv : PyVal) (k : String) (h1 : k ≠ "reconnect_count")
    (h2 : k ≠ "last_reconnect") :
    lookupKey (reconnectAdjusted base now lsv) k = lookupKey base k := by
  rw [reconnectAdjusted]
  by_cases htr : pyTruthy lsv = true
  · rw [if_pos htr]
    cases lsv with
    | str s =>
        simp only [reconnectParsed]
        cases hfi : fromIso s with
        | none => rfl
        | some t =>
            dsimp only
            by_cases hgap : 300 < now - t
            · rw [if_pos hgap]
              cases pyAddOne ((lookupKey base "reconnect_count").getD (.int 0)) with
              | none => rfl
              | some cnt =>
                  rw [lookupKey_setKey_ne _ _ _ _ h2, lookupKey_setKey_ne _ _ _ _ h1]
            · rw [if_neg hgap]
    | none => rfl
    | bool b => rfl
    | int n => rfl
    | float q => rfl
    | list xs => rfl
    | dict xs => rfl
  · rw [if_neg htr]

theorem lookup_recordAfterUpdate_ne (base : List (String × PyVal))
    (device_id : String) (data : List (String × PyVal)) (now : ℚ) (lsv : PyVal)
    (k : String) (h1 : k ≠ "metrics") (h2 : k ≠ "last_update")
    (h3 : k ≠ "friendly_name") (h4 : k ≠ "reconnect_count")
    (h5 : k ≠ "last_reconnect") :
    lookupKey (recordAfterUpdate base device_id data now lsv) k =
      lookupKey base k := by
  rw [recordAfterUpdate]
  rw [lookupKey_setKey_ne _ _ _ _ h3, lookupKey_setKey_ne _ _ _ _ h2,
    lookupKey_setKey_ne _ _ _ _ h1, lookup_reconnectAdjusted_ne _ _ _ _ h4 h5]

theorem metricsValOk_recordAfterUpdate (base : List (String × PyVal))
    (device_id : String) (data : List (String × PyVal)) (now : ℚ) (lsv : PyVal) :
    metricsValOk (recordAfterUpdate base device_id data now lsv) = true := by
  rw [metricsValOk, recordAfterUpdate]
  rw [lookupKey_setKey_ne _ _ _ _ (by decide), lookupKey_setKey_ne _ _ _ _ (by decide),
    lookupKey_setKey_self]

theorem process_device_update_eq (st : CoordState) (id : String)
    (data : List (String × PyVal)) (now : ℚ) (v : PyVal)
    (hv : pyGet ((lookupKey (baseRecord st id data now) "metrics").getD (.dict []))
        "last_seen" = .ok v) :
    process_device_update st id data now = .ok
      { devices := fun d =>
          if d = id then some (recordAfterUpdate (baseRecord st id data now) id data now v)
          else st.devices d,
        device_history := fun d =>
          if d = id then
            some (lastN 1000 (((st.device_history id).getD []) ++ [mkHistEntry data now]))
          else st.device_history d } := by
  rw [process_device_update]
  dsimp only
  rw [hv]
  simp only [Except.map, trunc_eq_lastN]

theorem baseRecord_read_ok (st : CoordState) (id : String)
    (data : List (String × PyVal)) (now : ℚ)
    (h : ∀ r, st.devices id = some r → metricsValOk r = true) :
    ∃ v, pyGet ((lookupKey (baseRecord st id data now) "metrics").getD (.dict []))
        "last_seen" = .ok v := by
  rw [baseRecord]
  cases hdev : st.devices id with
  | none =>
      have hm : lookupKey (freshDeviceRecord id data now) "metrics" = Option.none := by
        simp [freshDeviceRecord, lookupKey]
      exact ⟨PyVal.none, by rw [hm]; rfl⟩
  | some r =>
      have hok := h r hdev
      cases hm : lookupKey r "metrics" with
      | none => exact ⟨PyVal.none, rfl⟩
      | some w =>
          cases w with
          | dict m =>
              exact ⟨(lookupKey m "last_seen").getD PyVal.none, rfl⟩
          | none => simp [metricsValOk, hm] at hok
          | bool b => simp [metricsValOk, hm] at hok
          | int n => simp [metricsValOk, hm] at hok
          | float q => simp [metricsValOk, hm] at hok
          | str s => simp [metricsValOk, hm] at hok
          | list xs => simp [metricsValOk, hm] at hok

/-- C1: the code never computes or stores `analytics_metrics` during
`_process_device_update`: after the update that the repository's own test
(`test_coordinator_analytics_metrics_update`) performs, the freshly updated
record has `metrics` but NO `analytics_metrics` key. -/
theorem C1_analytics_metrics_not_cached :
    ((stepUpdate initialCoordState
        ⟨"test_device", [("linkquality", .int 200), ("battery", .int 90)], 0⟩).devices
        "test_device").map
      (fun r => (lookupKey r "analytics_metrics", (lookupKey r "metrics").isSome)) =
      some (Option.none, true) := by
  rfl

/-- C10: processing an update for a device id already present leaves the
record's `device_id` and `first_seen` (and every key other than `metrics`,
`last_update`, `friendly_name`, `reconnect_count`, `last_reconnect`)
unchanged, and leaves the records and histories of every other device id
untouched. -/
theorem C10_update_frame (st : CoordState) (u : UpdateMsg)
    (r : List (String × PyVal)) (hdev : st.devices u.device_id = some r) :
    (∃ r2, (stepUpdate st u).devices u.device_id = some r2 ∧
      lookupKey r2 "device_id" = lookupKey r "device_id" ∧
      lookupKey r2 "first_seen" = lookupKey r "first_seen" ∧
      (∀ k, k ≠ "metrics" → k ≠ "last_update" → k ≠ "friendly_name" →
        k ≠ "reconnect_count" → k ≠ "last_reconnect" →
        lookupKey r2 k = lookupKey r k)) ∧
    (∀ d, d ≠ u.device_id → (stepUpdate st u).devices d = st.devices d ∧
      (stepUpdate st u).device_history d = st.device_history d) := by
  obtain ⟨id, data, now⟩ := u
  dsimp only at hdev ⊢
  cases hp : process_device_update st id data now with
  | error e =>
      have hstep : stepUpdate st ⟨id, data, now⟩ = st := by
        rw [stepUpdate]; dsimp only; rw [hp]
      rw [hstep]
      exact ⟨⟨r, hdev, rfl, rfl, fun k _ _ _ _ _ => rfl⟩, fun d _ => ⟨rfl, rfl⟩⟩
  | ok st2 =>
      cases hg : pyGet ((lookupKey (baseRecord st id data now) "metrics").getD
          (.dict [])) "last_seen" with
      | error e =>
          rw [process_device_update] at hp
          dsimp only at hp
          rw [hg] at hp
          exact absurd hp (by simp [Except.map])
      | ok v =>
          have heq := process_device_update_eq st id data now v hg
          rw [hp] at heq
          have hst2 := (Except.ok.injEq _ _).mp heq
          have hstep : stepUpdate st ⟨id, data, now⟩ = st2 := by
            rw [stepUpdate]; dsimp only; rw [hp]
          rw [hstep, hst2]
          have hbase : baseRecord st id data now = r := by
            rw [baseRecord, hdev]
          constructor
          · refine ⟨recordAfterUpdate (baseRecord st id data now) id data now v,
              by simp, ?_, ?_, ?_⟩
            · rw [hbase]
              exact lookup_recordAfterUpdate_ne r id data now v "device_id"
                (by decide) (by decide) (by decide) (by decide) (by decide)
            · rw [hbase]
              exact lookup_recordAfterUpdate_ne r id data now v "first_seen"
                (by decide) (by decide) (by decide) (by decide) (by decide)
            · intro k h1 h2 h3 h4 h5
              rw [hbase]
              exact lookup_recordAfterUpdate_ne r id data now v k h1 h2 h3 h4 h5
          · intro d hd
            exact ⟨by simp [hd], by simp [hd]⟩

/-- Witness for C10: a store holding device `"dev"` receives an update for
it; the record of device id `"other"` is untouched. -/
theorem C10_update_frame_witness :
    (stepUpdate
        ⟨fun d => if d = "dev" then
            some [("device_id", PyVal.str "dev"),
                  ("first_seen", PyVal.str "2024-01-01T00:00:00")]
          else Option.none,
         fun _ => Option.none⟩
        ⟨"dev", [("battery", PyVal.int 90)], 600⟩).devices "other" =
      (⟨fun d => if d = "dev" then
            some [("device_id", PyVal.str "dev"),
                  ("first_seen", PyVal.str "2024-01-01T00:00:00")]
          else Option.none,
         fun _ => Option.none⟩ : CoordState).devices "other" :=
  ((C10_update_frame _ ⟨"dev", [("battery", PyVal.int 90)], 600⟩
      [("device_id", PyVal.str "dev"),
       ("first_seen", PyVal.str "2024-01-01T00:00:00")]
      (by rfl)).2 "other" (by decide)).1

theorem stepUpdate_inv (st : CoordState) (u : UpdateMsg) (h : StoreInv st) :
    StoreInv (stepUpdate st u) ∧
    ((stepUpdate st u).device_history u.device_id).getD [] =
      lastN 1000 (((st.device_history u.device_id).getD []) ++
        [mkHistEntry u.data u.now]) ∧
    (∀ d, d ≠ u.device_id →
      (stepUpdate st u).device_history d = st.device_history d) := by
  obtain ⟨id, data, now⟩ := u
  obtain ⟨v, hg⟩ := baseRecord_read_ok st id data now (h.1 id)
  have hp := process_device_update_eq st id data now v hg
  have hstep : stepUpdate st ⟨id, data, now⟩ =
      { devices := fun d =>
          if d = id then
            some (recordAfterUpdate (baseRecord st id data now) id data now v)
          else st.devices d,
        device_history := fun d =>
          if d = id then
            some (lastN 1000 (((st.device_history id).getD []) ++
              [mkHistEntry data now]))
          else st.device_history d } := by
    rw [stepUpdate]; dsimp only; rw [hp]
  rw [hstep]
  refine ⟨⟨?_, ?_⟩, ?_, ?_⟩
  · intro id2 r2 hr2
    dsimp only at hr2
    by_cases hd : id2 = id
    · rw [if_pos hd] at hr2
      have := Option.some.inj hr2
      rw [← this]
      exact metricsValOk_recordAfterUpdate _ _ _ _ _
    · rw [if_neg hd] at hr2
      exact h.1 id2 r2 hr2
  · intro d
    dsimp only
    by_cases hd : d = id
    · rw [if_pos hd]
      simp only [Option.getD_some, length_lastN]
      omega
    · rw [if_neg hd]
      exact h.2 d
  · dsimp only
    rw [if_pos rfl, Option.getD_some]
  · intro d hd
    dsimp only
    rw [if_neg hd]

theorem filter_replicate_self (n : Nat) (u : UpdateMsg) :
    ((List.replicate n u).filter (fun x => x.device_id == u.device_id)).length
      = n := by
  induction n with
  | zero => rfl
  | succ m ih =>
      rw [List.replicate_succ, List.filter_cons]
      simp only [beq_self_eq_true, if_true, List.length_cons, ih]

theorem applyUpdates_spec (l : List UpdateMsg) :
    ∀ st, StoreInv st →
      StoreInv (applyUpdates l st) ∧
      ∀ d, ((applyUpdates l st).device_history d).getD [] =
        lastN 1000 (((st.device_history d).getD []) ++ historyLog l d) := by
  induction l with
  | nil =>
      intro st h
      refine ⟨h, fun d => ?_⟩
      rw [applyUpdates, List.foldl_nil, historyLog]
      simp only [List.filter_nil, List.map_nil, List.append_nil]
      exact (lastN_of_le _ _ (h.2 d)).symm
  | cons u l ih =>
      intro st h
      obtain ⟨hInv2, hHistEq, hFrame⟩ := stepUpdate_inv st u h
      have ha : applyUpdates (u :: l) st = applyUpdates l (stepUpdate st u) := by
        rw [applyUpdates, applyUpdates, List.foldl_cons]
      rw [ha]
      obtain ⟨hInvF, hCharF⟩ := ih (stepUpdate st u) hInv2
      refine ⟨hInvF, fun d => ?_⟩
      rw [hCharF d]
      by_cases hd : d = u.device_id
      · subst hd
        rw [hHistEq, lastN_append, List.append_assoc]
        congr 1
        rw [historyLog, historyLog, List.filter_cons]
        simp only [beq_self_eq_true, if_true, List.map_cons, List.singleton_append]
      · rw [hFrame d hd]
        congr 1
        rw [historyLog, historyLog, List.filter_cons]
        have hne : (u.device_id == d) = false := by
          simp [Ne.symm hd]
        rw [hne]
        simp only [Bool.false_eq_true, if_false]

/-- C9: starting from the empty store, after any update sequence each
device's stored history is exactly the last 1000 entries of its full append
log (hence length `min (log length) 1000`, in chronological order with the
oldest dropped first); in particular 1001 updates for one device id leave
exactly 1000 entries. -/
theorem C9_history_capped :
    (∀ l d, ((applyUpdates l initialCoordState).device_history d).getD [] =
        lastN 1000 (historyLog l d)) ∧
    (∀ l d, (((applyUpdates l initialCoordState).device_history d).getD []).length =
        min (historyLog l d).length 1000) ∧
    (∀ u : UpdateMsg,
        (((applyUpdates (List.replicate 1001 u) initialCoordState).device_history
          u.device_id).getD []).length = 1000) := by
  have hInv0 : StoreInv initialCoordState := by
    constructor
    · intro id r hr
      simp [initialCoordState] at hr
    · intro d
      simp [initialCoordState]
  have main : ∀ l d,
      ((applyUpdates l initialCoordState).device_history d).getD [] =
        lastN 1000 (historyLog l d) := by
    intro l d
    have hch := (applyUpdates_spec l initialCoordState hInv0).2 d
    simpa [initialCoordState] using hch
  refine ⟨main, ?_, ?_⟩
  · intro l d
    rw [main l d, length_lastN]
  · intro u
    rw [main _ _, length_lastN]
    have hlen : (historyLog (List.replicate 1001 u) u.device_id).length = 1001 := by
      rw [historyLog, List.length_map, filter_replicate_self]
    rw [hlen]
    decide

/-! ### Sorting lemmas -/

theorem insertSorted_perm (g : α → α → Bool) (a : α) (l : List α) :
    List.Perm (insertSorted g a l) (a :: l) := by
  induction l with
  | nil => exact List.Perm.refl _
  | cons b bs ih =>
      rw [insertSorted]
      by_cases hg : g a b = true
      · rw [if_pos hg]
      · rw [if_neg hg]
        exact (List.Perm.cons b ih).trans (List.Perm.swap a b bs)

theorem insortAll_perm (g : α → α → Bool) :
    ∀ l acc : List α, List.Perm (insortAll g l acc) (l ++ acc) := by
  intro l
  induction l with
  | nil => intro acc; simp [insortAll]
  | cons x xs ih =>
      intro acc
      rw [insortAll]
      exact ((ih _).trans
        (List.Perm.append_left xs (insertSorted_perm g x acc))).trans
        (List.perm_middle : List.Perm (xs ++ x :: acc) (x :: (xs ++ acc)))

theorem insortList_perm (g : α → α → Bool) (l : List α) :
    List.Perm (insortList g l) l := by
  have h := insortAll_perm g l []
  simpa [insortList] using h

theorem insertSortedM_eq (lt : α → α → Except PyErr Bool) (g : α → α → Bool)
    (P : α → Prop) (hcomp : ∀ x y, P x → P y → lt x y = .ok (g x y)) (a : α)
    (hPa : P a) :
    ∀ bs : List α, (∀ b ∈ bs, P b) →
      insertSortedM lt a bs = .ok (insertSorted g a bs) := by
  intro bs
  induction bs with
  | nil => intro _; rfl
  | cons b bs ih =>
      intro hb
      rw [insertSortedM, insertSorted, hcomp a b hPa (hb b (by simp))]
      by_cases hg : g a b = true
      · rw [hg, if_pos rfl]
      · have hg2 : g a b = false := by simpa using hg
        rw [hg2, ih (fun x hx => hb x (by simp [hx]))]
        rfl

theorem insortAllM_eq (lt : α → α → Except PyErr Bool) (g : α → α → Bool)
    (P : α → Prop) (hcomp : ∀ x y, P x → P y → lt x y = .ok (g x y)) :
    ∀ l acc : List α, (∀ a ∈ l, P a) → (∀ b ∈ acc, P b) →
      insortAllM lt l acc = .ok (insortAll g l acc) := by
  intro l
  induction l with
  | nil => intro acc _ _; rfl
  | cons x xs ih =>
      intro acc hl hacc
      rw [insortAllM, insortAll,
        insertSortedM_eq lt g P hcomp x (hl x (by simp)) acc hacc]
      refine ih _ (fun a ha => hl a (by simp [ha])) (fun b hb => ?_)
      have hmem := (insertSorted_perm g x acc).mem_iff.mp hb
      rcases List.mem_cons.mp hmem with hbx | hba
      · rw [hbx]; exact hl x (by simp)
      · exact hacc b hba

theorem sortM_eq (lt : α → α → Except PyErr Bool) (g : α → α → Bool)
    (P : α → Prop) (hcomp : ∀ x y, P x → P y → lt x y = .ok (g x y))
    (l : List α) (hl : ∀ a ∈ l, P a) :
    sortM lt l = .ok (insortList g l) :=
  insortAllM_eq lt g P hcomp l [] hl (by simp)

/-! ### Purification of the reconnect-rate walk -/

theorem decorateTimestamps_eq (l : List PyVal) (h : ∀ e ∈ l, tsWF e = true) :
    decorateTimestamps l = .ok (l.map (fun e => (rawKeyDec e, e))) := by
  induction l with
  | nil => rfl
  | cons e rest ih =>
      have he := h e (by simp)
      cases e with
      | dict d =>
          rw [decorateTimestamps, ih (fun x hx => h x (by simp [hx]))]
          rfl
      | none => simp [tsWF] at he
      | bool b => simp [tsWF] at he
      | int n => simp [tsWF] at he
      | float q => simp [tsWF] at he
      | str s => simp [tsWF] at he
      | list xs => simp [tsWF] at he

theorem rawKeyDec_str (e : PyVal) (h : tsWF e = true) :
    ∃ s, rawKeyDec e = PyVal.str s := by
  cases e with
  | dict d =>
      rw [rawKeyDec]
      cases hl : lookupKey d "timestamp" with
      | none => exact ⟨"", rfl⟩
      | some v =>
          cases v with
          | str s => exact ⟨s, rfl⟩
          | none => simp [tsWF, hl] at h
          | bool b => simp [tsWF, hl] at h
          | int n => simp [tsWF, hl] at h
          | float q => simp [tsWF, hl] at h
          | list xs => simp [tsWF, hl] at h
          | dict xs => simp [tsWF, hl] at h
  | none => simp [tsWF] at h
  | bool b => simp [tsWF] at h
  | int n => simp [tsWF] at h
  | float q => simp [tsWF] at h
  | str s => simp [tsWF] at h
  | list xs => simp [tsWF] at h

theorem pyLt_keys (p q : PyVal × PyVal) (hp : ∃ s, p.1 = PyVal.str s)
    (hq : ∃ t, q.1 = PyVal.str t) :
    pyLt p.1 q.1 = .ok (decide (keyStr p.1 < keyStr q.1)) := by
  obtain ⟨s, hs⟩ := hp
  obtain ⟨t, ht⟩ := hq
  rw [hs, ht]
  rfl

theorem mem_sortedByRawTimestamp (history : List PyVal) (e : PyVal)
    (h : e ∈ sortedByRawTimestamp history) : e ∈ history := by
  rw [sortedByRawTimestamp] at h
  obtain ⟨p, hp, hpe⟩ := List.mem_map.mp h
  have hmem := (insortList_perm _ _).mem_iff.mp hp
  obtain ⟨e0, he0, heq⟩ := List.mem_map.mp hmem
  rw [← hpe, ← heq]
  exact he0

theorem rrTry_eq (ws : ℚ) (st : Nat × Option ℚ) (e : PyVal)
    (h : tsWF e = true) :
    pyTry loopCaught (rrBody ws st e) st = .ok (rrStep ws st e) := by
  cases e with
  | dict d =>
      rw [rrBody, rrStep, parsedTs]
      rw [show pyGet (PyVal.dict d) "timestamp" =
        .ok ((lookupKey d "timestamp").getD PyVal.none) from rfl]
      cases hl : lookupKey d "timestamp" with
      | none => rfl
      | some v =>
          cases v with
          | str s =>
              by_cases hs : s = ""
              · subst hs; rfl
              · simp only [Option.getD_some]
                rw [show pyTruthy (PyVal.str s) = true by
                  simp [pyTruthy, hs]]
                rw [if_neg hs]
                rw [show pyFromIso (PyVal.str s) = (match fromIso s with
                  | some q => .ok q
                  | Option.none => .error .valueError) from rfl]
                simp only [show (true = false) = False by simp, if_false]
                cases hf : fromIso s with
                | none => rfl
                | some t =>
                    dsimp only
                    by_cases hw : t < ws
                    · rw [if_pos hw, if_pos hw]; rfl
                    · rw [if_neg hw, if_neg hw]
                      cases hst : st.2 with
                      | none => rfl
                      | some p => rfl
          | none => simp [tsWF, hl] at h
          | bool b => simp [tsWF, hl] at h
          | int n => simp [tsWF, hl] at h
          | float q => simp [tsWF, hl] at h
          | list xs => simp [tsWF, hl] at h
          | dict xs => simp [tsWF, hl] at h
  | none => simp [tsWF] at h
  | bool b => simp [tsWF] at h
  | int n => simp [tsWF] at h
  | float q => simp [tsWF] at h
  | str s => simp [tsWF] at h
  | list xs => simp [tsWF] at h

theorem rrLoop_eq (ws : ℚ) :
    ∀ (l : List PyVal) (st : Nat × Option ℚ), (∀ e ∈ l, tsWF e = true) →
      rrLoop ws st l = .ok (rrFold ws st l) := by
  intro l
  induction l with
  | nil => intro st _; rfl
  | cons e rest ih =>
      intro st h
      rw [rrLoop, rrFold, rrTry_eq ws st e (h e (by simp))]
      exact ih _ (fun x hx => h x (by simp [hx]))

theorem rrFold_count (ws : ℚ) :
    ∀ (l : List PyVal) (n : Nat) (op : Option ℚ),
      (rrFold ws (n, op) l).1 = n + countGaps (optCons op (keptTimestamps ws l)) := by
  intro l
  induction l with
  | nil =>
      intro n op
      cases op with
      | none => simp [rrFold, keptTimestamps, optCons, countGaps]
      | some p => simp [rrFold, keptTimestamps, optCons, countGaps]
  | cons e rest ih =>
      intro n op
      rw [rrFold]
      cases hp : parsedTs e with
      | none =>
          rw [show rrStep ws (n, op) e = (n, op) by rw [rrStep, hp]]
          rw [ih n op]
          rw [show keptTimestamps ws (e :: rest) = keptTimestamps ws rest by
            simp [keptTimestamps, List.filterMap_cons, hp]]
      | some t =>
          by_cases hw : t < ws
          · rw [show rrStep ws (n, op) e = (n, op) by
              rw [rrStep, hp]; dsimp only; rw [if_pos hw]]
            rw [ih n op]
            rw [show keptTimestamps ws (e :: rest) = keptTimestamps ws rest by
              simp [keptTimestamps, List.filterMap_cons, hp, hw]]
          · have hkept : keptTimestamps ws (e :: rest) = t :: keptTimestamps ws rest := by
              simp [keptTimestamps, List.filterMap_cons, hp, hw]
            cases op with
            | none =>
                rw [show rrStep ws (n, Option.none) e = (n, some t) by
                  rw [rrStep, hp]; dsimp only; rw [if_neg hw]]
                rw [ih n (some t), hkept]
                rfl
            | some p =>
                rw [show rrStep ws (n, some p) e =
                    ((if 300 < t - p then n + 1 else n), some t) by
                  rw [rrStep, hp]; dsimp only; rw [if_neg hw]]
                rw [ih _ (some t), hkept]
                rw [show countGaps (optCons (some p) (t :: keptTimestamps ws rest)) =
                    (if 300 < t - p then 1 else 0) +
                      countGaps (t :: keptTimestamps ws rest) from rfl]
                rw [show optCons (some t) (keptTimestamps ws rest) =
                    t :: keptTimestamps ws rest from rfl]
                by_cases hg : 300 < t - p
                · rw [if_pos hg, if_pos hg]; omega
                · rw [if_neg hg, if_neg hg]; omega

theorem compute_reconnect_rate_eq (now : ℚ) (history : List PyVal)
    (wh : Int) (h : ∀ e ∈ history, tsWF e = true) :
    compute_reconnect_rate now history wh =
      .ok (spec_reconnect_rate now history wh) := by
  rw [compute_reconnect_rate, spec_reconnect_rate]
  by_cases hlen : history.length < 2
  · rw [if_pos hlen, if_pos hlen]
  · rw [if_neg hlen, if_neg hlen]
    rw [decorateTimestamps_eq history h]
    dsimp only
    rw [sortM_eq (fun a b => pyLt a.1 b.1)
      (fun a b : PyVal × PyVal => decide (keyStr a.1 < keyStr b.1))
      (fun p => ∃ s, p.1 = PyVal.str s)
      (fun x y hx hy => pyLt_keys x y hx hy)
      (history.map (fun e => (rawKeyDec e, e)))
      (fun p hp => by
        obtain ⟨e0, he0, heq⟩ := List.mem_map.mp hp
        rw [← heq]
        exact rawKeyDec_str e0 (h e0 he0))]
    dsimp only
    rw [show List.map (fun p : PyVal × PyVal => p.2)
        (insortList (fun a b : PyVal × PyVal => decide (keyStr a.1 < keyStr b.1))
          (List.map (fun e => (rawKeyDec e, e)) history)) =
        sortedByRawTimestamp history from rfl]
    rw [rrLoop_eq (now - (wh : ℚ) * 3600) _ _
      (fun e he => h e (mem_sortedByRawTimestamp history e he))]
    dsimp only
    by_cases hpos : 0 < wh
    · rw [if_pos hpos, if_neg (by omega : ¬ wh ≤ 0)]
      rw [rrFold_count (now - (wh : ℚ) * 3600) _ 0 Option.none]
      rw [show optCons Option.none
        (keptTimestamps (now - (wh : ℚ) * 3600) (sortedByRawTimestamp history)) =
        keptTimestamps (now - (wh : ℚ) * 3600) (sortedByRawTimestamp history)
        from rfl]
      rw [Nat.zero_add]
    · rw [if_neg hpos, if_pos (by omega : wh ≤ 0)]

/-- C3 counterexample: two in-window entries whose timestamps are equivalent
instants written with different separators (`" "` vs `"T"`). The code sorts
by the RAW string, which puts noon (space separator, `" " < "T"`) before
11:00, sees a negative gap, and returns 0.0; the claim's chronological
algorithm counts one reconnect and demands 1/24. -/
theorem C3_chrono_counterexample :
    compute_reconnect_rate ((fromIso "2024-01-01T13:00:00").getD 0)
      [.dict [("timestamp", .str "2024-01-01 12:00:00")],
       .dict [("timestamp", .str "2024-01-01T11:00:00")]] 24 = .ok 0 ∧
    claim_reconnect_rate_chrono ((fromIso "2024-01-01T13:00:00").getD 0)
      [.dict [("timestamp", .str "2024-01-01 12:00:00")],
       .dict [("timestamp", .str "2024-01-01T11:00:00")]] 24 = 1 / 24 ∧
    (0 : ℚ) ≠ 1 / 24 :=
  ⟨by with_unfolding_all rfl, by with_unfolding_all rfl, by norm_num⟩

/-- C3 (amended): for histories of dict entries whose raw timestamp values
are strings (or absent) — anything else can make the underlying `sorted`
raise — `compute_reconnect_rate` returns exactly the pure value of the
code's algorithm: 0.0 when the history has fewer than 2 entries or the
window is ≤ 0, otherwise the count of gap-exceeding-300 s adjacent pairs of the
RAW-STRING-sorted, window-filtered entries divided by the window. -/
theorem C3_reconnect_rate_correct (now : ℚ) (history : List PyVal) (wh : Int)
    (h : ∀ e ∈ history, tsWF e = true) :
    compute_reconnect_rate now history wh =
      .ok (spec_reconnect_rate now history wh) ∧
    ((history.length < 2 ∨ wh ≤ 0) →
      compute_reconnect_rate now history wh = .ok 0) := by
  refine ⟨compute_reconnect_rate_eq now history wh h, ?_⟩
  intro hg
  rw [compute_reconnect_rate_eq now history wh h, spec_reconnect_rate]
  rcases hg with hl | hw
  · rw [if_pos hl]
  · by_cases hl : history.length < 2
    · rw [if_pos hl]
    · rw [if_neg hl, if_pos hw]

/-- Witness for C3 at a concrete two-entry history with a one-hour gap. -/
theorem C3_reconnect_rate_correct_witness :
    compute_reconnect_rate ((fromIso "2024-01-01T13:00:00").getD 0)
      [.dict [("timestamp", .str "2024-01-01T11:00:00")],
       .dict [("timestamp", .str "2024-01-01T12:00:00")]] 24 =
      .ok (spec_reconnect_rate ((fromIso "2024-01-01T13:00:00").getD 0)
        [.dict [("timestamp", .str "2024-01-01T11:00:00")],
         .dict [("timestamp", .str "2024-01-01T12:00:00")]] 24) :=
  (C3_reconnect_rate_correct _ _ 24 (by decide)).1

/-! ### Purification of the battery-trend loop -/

theorem pyFromIso_err (v : PyVal) (e : PyErr) (h : pyFromIso v = .error e) :
    e = .valueError ∨ e = .typeError := by
  cases v with
  | str s =>
      simp only [pyFromIso] at h
      cases hf : fromIso s with
      | some q => rw [hf] at h; exact absurd h (by simp)
      | none => rw [hf] at h; simp only [Except.error.injEq] at h; exact Or.inl h.symm
  | none => simp only [pyFromIso, Except.error.injEq] at h; exact Or.inr h.symm
  | bool b => simp only [pyFromIso, Except.error.injEq] at h; exact Or.inr h.symm
  | int n => simp only [pyFromIso, Except.error.injEq] at h; exact Or.inr h.symm
  | float q => simp only [pyFromIso, Except.error.injEq] at h; exact Or.inr h.symm
  | list xs => simp only [pyFromIso, Except.error.injEq] at h; exact Or.inr h.symm
  | dict xs => simp only [pyFromIso, Except.error.injEq] at h; exact Or.inr h.symm

theorem pyFloat_err (v : PyVal) (e : PyErr) (h : pyFloat v = .error e) :
    e = .valueError ∨ e = .typeError := by
  cases v with
  | str s =>
      simp only [pyFloat] at h
      cases hf : parseFloatStr s with
      | some q => rw [hf] at h; exact absurd h (by simp)
      | none => rw [hf] at h; simp only [Except.error.injEq] at h; exact Or.inl h.symm
  | none => simp only [pyFloat, Except.error.injEq] at h; exact Or.inr h.symm
  | bool b => simp only [pyFloat] at h; exact absurd h (by simp)
  | int n => simp only [pyFloat] at h; exact absurd h (by simp)
  | float q => simp only [pyFloat] at h; exact absurd h (by simp)
  | list xs => simp only [pyFloat, Except.error.injEq] at h; exact Or.inr h.symm
  | dict xs => simp only [pyFloat, Except.error.injEq] at h; exact Or.inr h.symm

theorem btTry_eq (minB ws : ℚ) (acc : List (ℚ × ℚ)) (e : PyVal)
    (h : entryMetricsWF e = true) :
    pyTry loopCaught (btBody minB ws acc e) acc =
      .ok (acc ++ (batteryReading minB ws e).toList) := by
  cases e with
  | dict d =>
      obtain ⟨md, hm⟩ : ∃ md,
          (lookupKey d "metrics").getD (.dict []) = PyVal.dict md := by
        cases hlm : lookupKey d "metrics" with
        | none => exact ⟨[], rfl⟩
        | some w =>
            cases w with
            | dict m => exact ⟨m, rfl⟩
            | none => simp [entryMetricsWF, hlm] at h
            | bool b => simp [entryMetricsWF, hlm] at h
            | int n => simp [entryMetricsWF, hlm] at h
            | float q => simp [entryMetricsWF, hlm] at h
            | str s => simp [entryMetricsWF, hlm] at h
            | list xs => simp [entryMetricsWF, hlm] at h
      rw [btBody, batteryReading]
      rw [show pyGet (PyVal.dict d) "timestamp" =
        .ok ((lookupKey d "timestamp").getD PyVal.none) from rfl]
      dsimp only
      by_cases htr : pyTruthy ((lookupKey d "timestamp").getD PyVal.none) = false
      · rw [if_pos htr, if_pos htr]
        simp [pyTry]
      · rw [if_neg htr, if_neg htr]
        cases hpi : pyFromIso ((lookupKey d "timestamp").getD PyVal.none) with
        | error err =>
            rcases pyFromIso_err _ _ hpi with rfl | rfl <;>
              simp [pyTry, loopCaught]
        | ok t =>
            dsimp only
            by_cases hw : t < ws
            · rw [if_pos hw, if_pos hw]
              simp [pyTry]
            · rw [if_neg hw, if_neg hw]
              rw [show pyGetD (PyVal.dict d) "metrics" (.dict []) =
                .ok ((lookupKey d "metrics").getD (.dict [])) from rfl, hm]
              dsimp only
              rw [show pyGet (PyVal.dict md) "battery" =
                .ok ((lookupKey md "battery").getD PyVal.none) from rfl]
              rw [show pyGet (PyVal.dict md) "battery_percent" =
                .ok ((lookupKey md "battery_percent").getD PyVal.none) from rfl]
              dsimp only
              cases hnn : nonNoneVal
                  (if pyTruthy ((lookupKey md "battery").getD PyVal.none) = true
                   then (lookupKey md "battery").getD PyVal.none
                   else (lookupKey md "battery_percent").getD PyVal.none) with
              | none => simp [pyTry]
              | some bv =>
                  cases hpf : pyFloat bv with
                  | error err =>
                      rcases pyFloat_err _ _ hpf with rfl | rfl <;>
                        simp [pyTry, loopCaught, hpf]
                  | ok v =>
                      simp only [hpf]
                      by_cases hv : minB ≤ v
                      · rw [if_pos hv, if_pos hv]
                        simp [pyTry]
                      · rw [if_neg hv, if_neg hv]
                        simp [pyTry]
  | none => simp [entryMetricsWF] at h
  | bool b => simp [entryMetricsWF] at h
  | int n => simp [entryMetricsWF] at h
  | float q => simp [entryMetricsWF] at h
  | str s => simp [entryMetricsWF] at h
  | list xs => simp [entryMetricsWF] at h

theorem btLoop_eq (minB ws : ℚ) :
    ∀ (l : List PyVal) (acc : List (ℚ × ℚ)),
      (∀ e ∈ l, entryMetricsWF e = true) →
      btLoop minB ws acc l = .ok (acc ++ l.filterMap (batteryReading minB ws)) := by
  intro l
  induction l with
  | nil => intro acc _; simp [btLoop]
  | cons e rest ih =>
      intro acc h
      rw [btLoop, btTry_eq minB ws acc e (h e (by simp))]
      dsimp only
      rw [ih _ (fun x hx => h x (by simp [hx]))]
      cases hr : batteryReading minB ws e with
      | none => simp [List.filterMap_cons, hr, Option.toList]
      | some r => simp [List.filterMap_cons, hr, Option.toList]

theorem compute_battery_trend_eq (minB now : ℚ) (history : List PyVal)
    (wh : Int) (hwf : ∀ e ∈ history, entryMetricsWF e = true) :
    compute_battery_trend minB now history wh =
      (if (history.filterMap
            (batteryReading minB (now - (wh : ℚ) * 3600))).length < 2 then
        .ok Option.none
      else
        .ok (btSlope (insortList (fun a b => decide (a.2 < b.2))
          (history.filterMap (batteryReading minB (now - (wh : ℚ) * 3600)))))) := by
  rw [compute_battery_trend]
  by_cases hne : history.isEmpty = true
  · have hnil : history = [] := List.isEmpty_iff.mp hne
    subst hnil
    simp
  · rw [if_neg hne, btLoop_eq minB (now - (wh : ℚ) * 3600) history [] hwf,
      List.nil_append]

/-! ### Sortedness, the covariance identity and sign lemmas for the slope -/

theorem insertSorted_sorted {β : Type} [LinearOrder β] (k : α → β) (a : α) :
    ∀ l : List α, List.Pairwise (fun x y => k x ≤ k y) l →
      List.Pairwise (fun x y => k x ≤ k y)
        (insertSorted (fun x y => decide (k x < k y)) a l) := by
  intro l
  induction l with
  | nil => intro _; simp [insertSorted]
  | cons b bs ih =>
      intro h
      rw [insertSorted]
      by_cases hab : k a < k b
      · rw [if_pos (by simpa using hab)]
        refine List.pairwise_cons.mpr ⟨?_, h⟩
        intro y hy
        rcases List.mem_cons.mp hy with rfl | hybs
        · exact le_of_lt hab
        · exact le_trans (le_of_lt hab) ((List.pairwise_cons.mp h).1 y hybs)
      · rw [if_neg (by simpa using hab)]
        refine List.pairwise_cons.mpr ⟨?_, ih (List.pairwise_cons.mp h).2⟩
        intro y hy
        have hmem := (insertSorted_perm _ a bs).mem_iff.mp hy
        rcases List.mem_cons.mp hmem with rfl | hybs
        · exact le_of_not_lt hab
        · exact (List.pairwise_cons.mp h).1 y hybs

theorem insortAll_sorted {β : Type} [LinearOrder β] (k : α → β) :
    ∀ l acc : List α, List.Pairwise (fun x y => k x ≤ k y) acc →
      List.Pairwise (fun x y => k x ≤ k y)
        (insortAll (fun x y => decide (k x < k y)) l acc) := by
  intro l
  induction l with
  | nil => intro acc h; exact h
  | cons x xs ih =>
      intro acc h
      rw [insortAll]
      exact ih _ (insertSorted_sorted k x acc h)

theorem insortList_sorted {β : Type} [LinearOrder β] (k : α → β) (l : List α) :
    List.Pairwise (fun x y => k x ≤ k y)
      (insortList (fun x y => decide (k x < k y)) l) :=
  insortAll_sorted k l [] List.Pairwise.nil

theorem list_sum_neg (l : List ℚ) (h : ∀ x ∈ l, x < 0) (hne : l ≠ []) :
    l.sum < 0 := by
  induction l with
  | nil => exact absurd rfl hne
  | cons x xs ih =>
      rw [List.sum_cons]
      cases xs with
      | nil => simpa using h x (by simp)
      | cons y ys =>
          have h1 := h x (by simp)
          have h2 := ih (fun z hz => h z (by simp [hz])) (by simp)
          linarith

theorem list_sum_nonpos (l : List ℚ) (h : ∀ x ∈ l, x ≤ 0) : l.sum ≤ 0 := by
  induction l with
  | nil => simp
  | cons x xs ih =>
      rw [List.sum_cons]
      have h1 := h x (by simp)
      have h2 := ih (fun z hz => h z (by simp [hz]))
      linarith

theorem pairSum_head (x : ℚ × ℚ) (xs : List (ℚ × ℚ)) :
    (xs.map (fun y => (y.2 - x.2) * (y.1 - x.1))).sum =
      (xs.map (fun r => r.2 * r.1)).sum - x.2 * (xs.map (fun r => r.1)).sum -
        x.1 * (xs.map (fun r => r.2)).sum + (xs.length : ℚ) * (x.2 * x.1) := by
  induction xs with
  | nil => simp
  | cons y ys ih =>
      simp only [List.map_cons, List.sum_cons, List.length_cons]
      rw [ih]
      push_cast
      ring

theorem cov_identity (l : List (ℚ × ℚ)) :
    (l.length : ℚ) * (l.map (fun r => r.2 * r.1)).sum -
      (l.map (fun r => r.2)).sum * (l.map (fun r => r.1)).sum = pairSum l := by
  induction l with
  | nil => simp [pairSum]
  | cons x xs ih =>
      rw [pairSum, pairSum_head]
      simp only [List.map_cons, List.sum_cons, List.length_cons]
      push_cast
      linear_combination ih

theorem pairSum_nonneg (l : List (ℚ × ℚ))
    (h : List.Pairwise (fun a b => 0 ≤ (b.2 - a.2) * (b.1 - a.1)) l) :
    0 ≤ pairSum l := by
  induction l with
  | nil => simp [pairSum]
  | cons x xs ih =>
      rw [pairSum]
      have h1 := (List.pairwise_cons.mp h).1
      have h2 := ih (List.pairwise_cons.mp h).2
      have h3 : 0 ≤ (xs.map (fun y => (y.2 - x.2) * (y.1 - x.1))).sum :=
        List.sum_nonneg (fun z hz => by
          obtain ⟨y, hy, hzy⟩ := List.mem_map.mp hz
          rw [← hzy]
          exact h1 y hy)
      linarith

theorem pairSum_pos (l : List (ℚ × ℚ)) (hlen : 2 ≤ l.length)
    (h : List.Pairwise (fun a b => 0 < (b.2 - a.2) * (b.1 - a.1)) l) :
    0 < pairSum l := by
  cases l with
  | nil => simp at hlen
  | cons x xs =>
      cases xs with
      | nil => simp at hlen
      | cons y ys =>
          rw [pairSum]
          have h1 := (List.pairwise_cons.mp h).1
          have hmap : 0 < ((y :: ys).map
              (fun z => (z.2 - x.2) * (z.1 - x.1))).sum := by
            apply List.sum_pos
            · intro z hz
              obtain ⟨w, hw, hzw⟩ := List.mem_map.mp hz
              rw [← hzw]
              exact h1 w hw
            · simp
          have h2 : 0 ≤ pairSum (y :: ys) :=
            pairSum_nonneg _
              (((List.pairwise_cons.mp h).2).imp (fun hab => le_of_lt hab))
          linarith

theorem pairSum_nonpos (l : List (ℚ × ℚ))
    (h : List.Pairwise (fun a b => (b.2 - a.2) * (b.1 - a.1) ≤ 0) l) :
    pairSum l ≤ 0 := by
  induction l with
  | nil => simp [pairSum]
  | cons x xs ih =>
      rw [pairSum]
      have h1 := (List.pairwise_cons.mp h).1
      have h2 := ih (List.pairwise_cons.mp h).2
      have h3 : (xs.map (fun y => (y.2 - x.2) * (y.1 - x.1))).sum ≤ 0 :=
        list_sum_nonpos _ (fun z hz => by
          obtain ⟨y, hy, hzy⟩ := List.mem_map.mp hz
          rw [← hzy]
          exact h1 y hy)
      linarith

theorem pairSum_neg (l : List (ℚ × ℚ)) (hlen : 2 ≤ l.length)
    (h : List.Pairwise (fun a b => (b.2 - a.2) * (b.1 - a.1) < 0) l) :
    pairSum l < 0 := by
  cases l with
  | nil => simp at hlen
  | cons x xs =>
      cases xs with
      | nil => simp at hlen
      | cons y ys =>
          rw [pairSum]
          have h1 := (List.pairwise_cons.mp h).1
          have hmap : ((y :: ys).map
              (fun z => (z.2 - x.2) * (z.1 - x.1))).sum < 0 := by
            apply list_sum_neg
            · intro z hz
              obtain ⟨w, hw, hzw⟩ := List.mem_map.mp hz
              rw [← hzw]
              exact h1 w hw
            · simp
          have h2 : pairSum (y :: ys) ≤ 0 :=
            pairSum_nonpos _
              (((List.pairwise_cons.mp h).2).imp (fun hab => le_of_lt hab))
          linarith

theorem roundHalfEven_nonneg (x : ℚ) (h : 0 ≤ x) : 0 ≤ roundHalfEven x := by
  have hf : 0 ≤ ⌊x⌋ := Int.le_floor.mpr (by simpa using h)
  rw [roundHalfEven]
  split
  · exact hf
  · split
    · omega
    · split
      · exact hf
      · omega

theorem roundHalfEven_nonpos (x : ℚ) (h : x ≤ 0) : roundHalfEven x ≤ 0 := by
  have hf0 : ⌊x⌋ ≤ 0 := by
    have := Int.floor_le_floor h
    simpa using this
  simp only [roundHalfEven]
  by_cases h1 : x - (⌊x⌋ : ℚ) < 1 / 2
  · rw [if_pos h1]; exact hf0
  · rw [if_neg h1]
    by_cases h2 : 1 / 2 < x - (⌊x⌋ : ℚ)
    · rw [if_pos h2]
      by_cases hf : ⌊x⌋ = 0
      · exfalso
        rw [hf] at h2
        push_cast at h2
        linarith
      · omega
    · rw [if_neg h2]
      have heq : x - (⌊x⌋ : ℚ) = 1 / 2 := le_antisymm (not_lt.mp h2) (not_lt.mp h1)
      have hfneg : ⌊x⌋ < 0 := by
        by_contra hge
        push_neg at hge
        have hz : ⌊x⌋ = 0 := le_antisymm hf0 hge
        rw [hz] at heq
        push_cast at heq
        linarith
      by_cases hpar : ⌊x⌋ % 2 = 0
      · rw [if_pos hpar]; omega
      · rw [if_neg hpar]; omega

theorem pyRound_nonneg (x : ℚ) (n : Nat) (h : 0 ≤ x) : 0 ≤ pyRound x n := by
  rw [pyRound]
  have h1 : 0 ≤ roundHalfEven (x * (10 : ℚ) ^ n) :=
    roundHalfEven_nonneg _ (by positivity)
  exact div_nonneg (by exact_mod_cast h1) (by positivity)

theorem pyRound_nonpos (x : ℚ) (n : Nat) (h : x ≤ 0) : pyRound x n ≤ 0 := by
  rw [pyRound]
  have h1 : roundHalfEven (x * (10 : ℚ) ^ n) ≤ 0 :=
    roundHalfEven_nonpos _ (mul_nonpos_of_nonpos_of_nonneg h (by positivity))
  apply div_nonpos_of_nonpos_of_nonneg (by exact_mod_cast h1) (by positivity)

theorem btSlope_strict (r0 : ℚ × ℚ) (rest : List (ℚ × ℚ))
    (hlen : 2 ≤ (r0 :: rest).length)
    (hst : List.Pairwise (fun a b : ℚ × ℚ => a.2 < b.2) (r0 :: rest)) :
    0 < pairSum (((r0 :: rest).map
        (fun r => (r.1, (r.2 - r0.2) / 3600))).map (fun p => (p.2, p.2))) ∧
    btSlope (r0 :: rest) = some (pyRound
      (pairSum ((r0 :: rest).map (fun r => (r.1, (r.2 - r0.2) / 3600))) /
        pairSum (((r0 :: rest).map
          (fun r => (r.1, (r.2 - r0.2) / 3600))).map (fun p => (p.2, p.2)))) 2) := by
  have hpairDen : List.Pairwise
      (fun a b : ℚ × ℚ => 0 < (b.2 - a.2) * (b.1 - a.1))
      (((r0 :: rest).map (fun r => (r.1, (r.2 - r0.2) / 3600))).map
        (fun p => (p.2, p.2))) := by
    rw [List.pairwise_map, List.pairwise_map]
    refine hst.imp (fun {a b} hab => ?_)
    dsimp only
    have key : (b.2 - r0.2) / 3600 - (a.2 - r0.2) / 3600 = (b.2 - a.2) / 3600 := by
      ring
    rw [key]
    have hpos : 0 < (b.2 - a.2) / 3600 := div_pos (sub_pos.mpr hab) (by norm_num)
    exact mul_pos hpos hpos
  have hdenpos : 0 < pairSum (((r0 :: rest).map
      (fun r => (r.1, (r.2 - r0.2) / 3600))).map (fun p => (p.2, p.2))) :=
    pairSum_pos _ (by simp only [List.length_map]; exact hlen) hpairDen
  refine ⟨hdenpos, ?_⟩
  have hnum := cov_identity ((r0 :: rest).map (fun r => (r.1, (r.2 - r0.2) / 3600)))
  have hden := cov_identity (((r0 :: rest).map
      (fun r => (r.1, (r.2 - r0.2) / 3600))).map (fun p => (p.2, p.2)))
  simp only [List.map_map, Function.comp_def, List.length_map] at hnum hden hdenpos ⊢
  simp only [btSlope]
  have h0 : ¬ (((r0 :: rest).map
      (fun r => ((r.2 - r0.2) / 3600) ^ 2)).sum = 0) := by
    intro hz
    simp only [pow_two] at hz
    rw [hz, mul_zero, zero_sub] at hden
    nlinarith [hdenpos, hden,
      mul_self_nonneg (((r0 :: rest).map (fun x => (x.2 - r0.2) / 3600)).sum)]
  rw [if_neg h0]
  simp only [pow_two]
  rw [← hnum, ← hden]

/-- C5: on well-formed history with at least two in-window battery readings at
pairwise-distinct timestamps, a strictly decreasing battery yields a trend that
is the 2-decimal rounding of a strictly negative OLS slope (hence ≤ 0), and a
strictly increasing battery the rounding of a strictly positive slope (hence
≥ 0); rounding can collapse the strict sign of the returned value to 0. -/
theorem C5_battery_trend_sign (minB now : ℚ) (history : List PyVal) (wh : Int)
    (rs : List (ℚ × ℚ))
    (hrs : rs = history.filterMap (batteryReading minB (now - (wh : ℚ) * 3600)))
    (hwf : ∀ e ∈ history, entryMetricsWF e = true)
    (hlen : 2 ≤ rs.length)
    (hdist : List.Pairwise (fun a b : ℚ × ℚ => a.2 ≠ b.2) rs) :
    ((∀ a ∈ rs, ∀ b ∈ rs, a.2 < b.2 → b.1 < a.1) →
      ∃ slope : ℚ, slope < 0 ∧ pyRound slope 2 ≤ 0 ∧
        compute_battery_trend minB now history wh = .ok (some (pyRound slope 2))) ∧
    ((∀ a ∈ rs, ∀ b ∈ rs, a.2 < b.2 → a.1 < b.1) →
      ∃ slope : ℚ, 0 < slope ∧ 0 ≤ pyRound slope 2 ∧
        compute_battery_trend minB now history wh = .ok (some (pyRound slope 2))) := by
  have hcbt := compute_battery_trend_eq minB now history wh hwf
  rw [if_neg (by rw [← hrs]; omega)] at hcbt
  have hperm : List.Perm (insortList (fun a b : ℚ × ℚ => decide (a.2 < b.2))
      (history.filterMap (batteryReading minB (now - (wh : ℚ) * 3600))))
      (history.filterMap (batteryReading minB (now - (wh : ℚ) * 3600))) :=
    insortList_perm _ _
  have hsorted : List.Pairwise (fun x y : ℚ × ℚ => x.2 ≤ y.2)
      (insortList (fun a b : ℚ × ℚ => decide (a.2 < b.2))
        (history.filterMap (batteryReading minB (now - (wh : ℚ) * 3600)))) :=
    insortList_sorted (fun r : ℚ × ℚ => r.2) _
  cases hcons : insortList (fun a b : ℚ × ℚ => decide (a.2 < b.2))
      (history.filterMap (batteryReading minB (now - (wh : ℚ) * 3600))) with
  | nil =>
      exfalso
      have hl := hperm.length_eq
      rw [hcons] at hl
      simp at hl
      rw [hrs] at hlen
      omega
  | cons s0 srest =>
      rw [hcons] at hcbt hperm hsorted
      have hlenss : 2 ≤ (s0 :: srest).length := by
        rw [hperm.length_eq, ← hrs]; exact hlen
      have hdss : List.Pairwise (fun a b : ℚ × ℚ => a.2 ≠ b.2) (s0 :: srest) :=
        (hperm.pairwise_iff (fun h => h.symm)).mpr (hrs ▸ hdist)
      have hlt : List.Pairwise (fun a b : ℚ × ℚ => a.2 < b.2) (s0 :: srest) :=
        (hsorted.and hdss).imp (fun h => lt_of_le_of_ne h.1 h.2)
      obtain ⟨hdpos, hbs⟩ := btSlope_strict s0 srest hlenss hlt
      have hmem : ∀ a : ℚ × ℚ, a ∈ s0 :: srest → a ∈ rs := by
        intro a ha
        rw [hrs]
        exact hperm.mem_iff.mp ha
      constructor
      · intro hmono
        have hpair : List.Pairwise
            (fun a b : ℚ × ℚ => a.2 < b.2 ∧ b.1 < a.1) (s0 :: srest) :=
          hlt.imp_of_mem (fun {a b} ha hb hab =>
            ⟨hab, hmono a (hmem a ha) b (hmem b hb) hab⟩)
        have hnumneg : pairSum ((s0 :: srest).map
            (fun r => (r.1, (r.2 - s0.2) / 3600))) < 0 := by
          apply pairSum_neg
          · rw [List.length_map]; exact hlenss
          · rw [List.pairwise_map]
            refine hpair.imp (fun {a b} hab => ?_)
            dsimp only
            have key : (b.2 - s0.2) / 3600 - (a.2 - s0.2) / 3600 =
                (b.2 - a.2) / 3600 := by ring
            rw [key]
            exact mul_neg_of_pos_of_neg
              (div_pos (sub_pos.mpr hab.1) (by norm_num))
              (sub_neg.mpr hab.2)
        have hsl : pairSum ((s0 :: srest).map (fun r => (r.1, (r.2 - s0.2) / 3600))) /
            pairSum (((s0 :: srest).map (fun r => (r.1, (r.2 - s0.2) / 3600))).map
              (fun p => (p.2, p.2))) < 0 := div_neg_of_neg_of_pos hnumneg hdpos
        exact ⟨_, hsl, pyRound_nonpos _ 2 (le_of_lt hsl), by rw [hcbt, hbs]⟩
      · intro hmono
        have hpair : List.Pairwise
            (fun a b : ℚ × ℚ => a.2 < b.2 ∧ a.1 < b.1) (s0 :: srest) :=
          hlt.imp_of_mem (fun {a b} ha hb hab =>
            ⟨hab, hmono a (hmem a ha) b (hmem b hb) hab⟩)
        have hnumpos : 0 < pairSum ((s0 :: srest).map
            (fun r => (r.1, (r.2 - s0.2) / 3600))) := by
          apply pairSum_pos
          · rw [List.length_map]; exact hlenss
          · rw [List.pairwise_map]
            refine hpair.imp (fun {a b} hab => ?_)
            dsimp only
            have key : (b.2 - s0.2) / 3600 - (a.2 - s0.2) / 3600 =
                (b.2 - a.2) / 3600 := by ring
            rw [key]
            exact mul_pos (div_pos (sub_pos.mpr hab.1) (by norm_num))
              (sub_pos.mpr hab.2)
        have hsl : 0 < pairSum ((s0 :: srest).map (fun r => (r.1, (r.2 - s0.2) / 3600))) /
            pairSum (((s0 :: srest).map (fun r => (r.1, (r.2 - s0.2) / 3600))).map
              (fun p => (p.2, p.2))) := div_pos hnumpos hdpos
        exact ⟨_, hsl, pyRound_nonneg _ 2 (le_of_lt hsl), by rw [hcbt, hbs]⟩

/-- Witness for C5: two readings, battery 100 at 10:00 then 50 at 12:00. -/
theorem C5_battery_trend_sign_witness :
    ∃ slope : ℚ, slope < 0 ∧ pyRound slope 2 ≤ 0 ∧
      compute_battery_trend 20 50000
        [PyVal.dict [("timestamp", PyVal.str "0001-01-01T10:00:00"),
           ("metrics", PyVal.dict [("battery", PyVal.int 100)])],
         PyVal.dict [("timestamp", PyVal.str "0001-01-01T12:00:00"),
           ("metrics", PyVal.dict [("battery", PyVal.int 50)])]] 24 =
        .ok (some (pyRound slope 2)) :=
  (C5_battery_trend_sign 20 50000
    [PyVal.dict [("timestamp", PyVal.str "0001-01-01T10:00:00"),
       ("metrics", PyVal.dict [("battery", PyVal.int 100)])],
     PyVal.dict [("timestamp", PyVal.str "0001-01-01T12:00:00"),
       ("metrics", PyVal.dict [("battery", PyVal.int 50)])]] 24
    [((100 : ℚ), (36000 : ℚ)), ((50 : ℚ), (43200 : ℚ))]
    (by with_unfolding_all rfl) (by decide) (by decide)
    (by with_unfolding_all decide)).1 (by with_unfolding_all decide)

/-- Counterexample to C5 as stated: battery 50 then 50.001 one hour later is
strictly increasing (all side conditions of the claim hold), yet the returned
trend is 0, not > 0: rounding to 2 decimals destroys the strict sign. -/
theorem C5_round_kills_sign_counterexample :
    [PyVal.dict [("timestamp", PyVal.str "0001-01-01T10:00:00"),
       ("metrics", PyVal.dict [("battery", PyVal.int 50)])],
     PyVal.dict [("timestamp", PyVal.str "0001-01-01T11:00:00"),
       ("metrics", PyVal.dict [("battery", PyVal.float (50001/1000))])]].filterMap
      (batteryReading 20 (50000 - (24 : ℚ) * 3600)) =
      [((50 : ℚ), (36000 : ℚ)), ((50001/1000 : ℚ), (39600 : ℚ))] ∧
    (50 : ℚ) < 50001/1000 ∧ (36000 : ℚ) < 39600 ∧
    compute_battery_trend 20 50000
      [PyVal.dict [("timestamp", PyVal.str "0001-01-01T10:00:00"),
         ("metrics", PyVal.dict [("battery", PyVal.int 50)])],
       PyVal.dict [("timestamp", PyVal.str "0001-01-01T11:00:00"),
         ("metrics", PyVal.dict [("battery", PyVal.float (50001/1000))])]] 24 =
      .ok (some 0) ∧
    ¬ ((0 : ℚ) > 0) :=
  ⟨by with_unfolding_all rfl, by norm_num, by norm_num,
   by with_unfolding_all rfl, by norm_num⟩

theorem lqScoreOf_eq (v : PyVal) : lqScoreOf v = .ok (spec_lqScore v) := by
  cases hpf : pyFloat v with
  | ok x =>
      cases v
      case none => rfl
      all_goals simp [lqScoreOf, spec_lqScore, pyTry, hpf]
  | error e =>
      cases v
      case none => rfl
      all_goals (rcases pyFloat_err _ _ hpf with rfl | rfl <;>
        simp [lqScoreOf, spec_lqScore, pyTry, hpf])

theorem batScoreOf_eq (v : PyVal) : batScoreOf v = .ok (spec_batScore v) := by
  cases hpf : pyFloat v with
  | ok x =>
      cases v
      case none => rfl
      all_goals simp [batScoreOf, spec_batScore, pyTry, hpf]
  | error e =>
      cases v
      case none => rfl
      all_goals (rcases pyFloat_err _ _ hpf with rfl | rfl <;>
        simp [batScoreOf, spec_batScore, pyTry, hpf])

theorem connScoreOf_eq (now : ℚ) (v : PyVal) :
    connScoreOf now v = .ok (spec_connScore now v) := by
  rw [connScoreOf, spec_connScore]
  by_cases ht : pyTruthy v
  · rw [if_pos ht, if_pos ht]
    cases hpf : pyFromIso v with
    | ok t =>
        dsimp only
        split
        · simp [pyTry]
        · split <;> simp [pyTry]
    | error e => rcases pyFromIso_err _ _ hpf with rfl | rfl <;> simp [pyTry]
  · rw [if_neg ht, if_neg ht]

set_option maxHeartbeats 1000000 in
/-- On a well-formed device dict and a history of entries with
string-or-absent timestamps, `compute_health_score` equals the pure weighted
formula `spec_health_score`. -/
theorem compute_health_score_eq (wh : Int) (now : ℚ) (device : PyVal)
    (history : List PyVal) (hdev : deviceWF device = true)
    (hwf : ∀ e ∈ history, tsWF e = true) :
    compute_health_score wh now device history =
      .ok (spec_health_score wh now device history) := by
  cases device with
  | dict d =>
      obtain ⟨m, hm⟩ : ∃ m, (lookupKey d "metrics").getD (.dict []) = .dict m := by
        revert hdev
        rw [deviceWF]
        cases hl : lookupKey d "metrics" with
        | none => exact fun _ => ⟨[], rfl⟩
        | some v =>
            cases v <;> simp
      have h1 : pyGetD (PyVal.dict d) "metrics" (.dict []) = .ok (.dict m) := by
        rw [pyGetD, hm]
      simp only [compute_health_score, h1, pyGet, pyGetD, lqScoreOf_eq,
        batScoreOf_eq, compute_reconnect_rate_eq now history wh hwf,
        connScoreOf_eq]
      simp only [hm]
      simp only [spec_health_score, healthFormula, metricsOfDevice, hm]
  | none => simp [deviceWF] at hdev
  | bool b => simp [deviceWF] at hdev
  | int n => simp [deviceWF] at hdev
  | float q => simp [deviceWF] at hdev
  | str s => simp [deviceWF] at hdev
  | list l => simp [deviceWF] at hdev

/-- C4 (amended): on a well-formed device dict (its `"metrics"` value, if
present, a dict) and a history of entries with string-or-absent timestamps,
`compute_health_score` returns exactly the amended formula: weighted
`0.3/0.2/0.3/0.2` sum of the sub-scores with the link-quality sub-score
`min(100, lq/255*100)` — NOT clamped below at 0 — clamped to [0,100] and
rounded to 1 decimal. -/
theorem C4_health_score_formula (wh : Int) (now : ℚ) (device : PyVal)
    (history : List PyVal) (hdev : deviceWF device = true)
    (hwf : ∀ e ∈ history, tsWF e = true) :
    compute_health_score wh now device history =
      .ok (spec_health_score wh now device history) :=
  compute_health_score_eq wh now device history hdev hwf

/-- C4 counterexample: `link_quality = -255` parses, so the code's sub-score
is `min(100, -100) = -100` (no lower clamp) and the total is 10.0, while the
claim's clamped sub-score gives 0 and a total of 40.0. -/
theorem C4_lq_clamp_counterexample :
    compute_health_score 24 0
      (.dict [("metrics", .dict [("link_quality", .int (-255))])]) [] =
      .ok 10 ∧
    claim_health_score 24 0
      (.dict [("metrics", .dict [("link_quality", .int (-255))])]) [] = 40 ∧
    (10 : ℚ) ≠ 40 :=
  ⟨by with_unfolding_all rfl, by with_unfolding_all rfl, by norm_num⟩

/-- Witness for C4 on a fully populated well-formed device. -/
theorem C4_health_score_formula_witness :
    compute_health_score 24 100
      (.dict [("metrics", .dict [("link_quality", .int 200),
        ("battery", .int 80),
        ("last_seen", .str "0001-01-01T00:00:00")])]) [] =
      .ok (spec_health_score 24 100
        (.dict [("metrics", .dict [("link_quality", .int 200),
          ("battery", .int 80),
          ("last_seen", .str "0001-01-01T00:00:00")])]) []) :=
  C4_health_score_formula 24 100
    (.dict [("metrics", .dict [("link_quality", .int 200),
      ("battery", .int 80),
      ("last_seen", .str "0001-01-01T00:00:00")])]) []
    (by decide) (by decide)

/-- C2 counterexample: five malformed inputs, one per operation, on which the
code raises instead of degrading — mixed-type timestamps make `sorted` raise
`TypeError` outside the try; a non-dict `metrics` entry makes `metrics.get`
raise `AttributeError` (not among the caught classes); an int `history`
makes `len()` raise `TypeError`. -/
theorem C2_raise_counterexample :
    compute_reconnect_rate 0
      [.dict [("timestamp", .int 1)], .dict [("timestamp", .str "a")]] 24 =
      .error .typeError ∧
    compute_battery_trend 20 0
      [.dict [("timestamp", .str "0001-01-01T00:00:00"),
        ("metrics", .int 5)]] 24 = .error .attributeError ∧
    compute_health_score 24 0 (.dict [("metrics", .int 7)]) [] =
      .error .attributeError ∧
    check_battery_drain_warning 20 5 0
      [.dict [("timestamp", .str "0001-01-01T00:00:00"),
        ("metrics", .int 5)]] = .error .attributeError ∧
    check_connectivity_warning 24 0 (.dict [("history", .int 3)]) 5 =
      .error .typeError :=
  ⟨by with_unfolding_all rfl, by with_unfolding_all rfl,
   by with_unfolding_all rfl, by with_unfolding_all rfl,
   by with_unfolding_all rfl⟩

/-- C2 (amended): the five analytics operations terminate without an
exception PROVIDED the inputs are well-formed where the code assumes it:
history entries are dicts with string-or-absent timestamps and dict-or-absent
metrics, the device is a dict whose `"metrics"` value (if present) is a dict,
and its `"history"` value (if present) is a list of such entries. Outside
that envelope the operations can raise (see the counterexample). -/
theorem C2_no_raise_on_wf (minB thr now : ℚ) (wh : Int)
    (history : List PyVal) (device : PyVal)
    (hts : ∀ e ∈ history, tsWF e = true)
    (hmet : ∀ e ∈ history, entryMetricsWF e = true)
    (hdev : deviceWF device = true)
    (hdh : deviceHistWF device = true) :
    (∃ q, compute_reconnect_rate now history wh = .ok q) ∧
    (∃ t, compute_battery_trend minB now history wh = .ok t) ∧
    (∃ s, compute_health_score wh now device history = .ok s) ∧
    (∃ b, check_battery_drain_warning minB thr now history = .ok b) ∧
    (∃ b, check_connectivity_warning wh now device thr = .ok b) := by
  refine ⟨⟨_, compute_reconnect_rate_eq now history wh hts⟩, ?_, ?_, ?_, ?_⟩
  · by_cases hl : (history.filterMap
        (batteryReading minB (now - (wh : ℚ) * 3600))).length < 2
    · exact ⟨Option.none,
        by rw [compute_battery_trend_eq minB now history wh hmet, if_pos hl]⟩
    · exact ⟨_,
        by rw [compute_battery_trend_eq minB now history wh hmet, if_neg hl]⟩
  · exact ⟨_, compute_health_score_eq wh now device history hdev hts⟩
  · rw [check_battery_drain_warning,
      compute_battery_trend_eq minB now history 24 hmet]
    by_cases hl : (history.filterMap
        (batteryReading minB (now - ((24 : Int) : ℚ) * 3600))).length < 2
    · rw [if_pos hl]
      exact ⟨false, rfl⟩
    · rw [if_neg hl]
      cases btSlope (insortList (fun a b => decide (a.2 < b.2))
          (history.filterMap (batteryReading minB
            (now - ((24 : Int) : ℚ) * 3600)))) with
      | none => exact ⟨false, rfl⟩
      | some t => exact ⟨_, rfl⟩
  · cases device with
    | dict d =>
        obtain ⟨m, hm⟩ : ∃ m, (lookupKey d "metrics").getD (.dict []) =
            .dict m := by
          revert hdev
          rw [deviceWF]
          cases hl : lookupKey d "metrics" with
          | none => exact fun _ => ⟨[], rfl⟩
          | some v => cases v <;> simp
        obtain ⟨l, hl2, hltsf⟩ : ∃ l, (lookupKey d "history").getD (.list []) =
            .list l ∧ ∀ e ∈ l, tsWF e = true := by
          revert hdh
          rw [deviceHistWF]
          cases hh : lookupKey d "history" with
          | none => exact fun _ => ⟨[], rfl, by simp⟩
          | some v =>
              cases v with
              | list l =>
                  intro h
                  refine ⟨l, rfl, ?_⟩
                  simpa [List.all_eq_true] using h
              | none => intro h; simp at h
              | bool b => intro h; simp at h
              | int n => intro h; simp at h
              | float q => intro h; simp at h
              | str s => intro h; simp at h
              | dict dd => intro h; simp at h
        have h2 : pyGetD (PyVal.dict d) "history" (.list []) = .ok (.list l) := by
          rw [pyGetD, hl2]
        have h1 : pyGetD (PyVal.dict d) "metrics" (.dict []) = .ok (.dict m) := by
          rw [pyGetD, hm]
        rw [check_connectivity_warning, h2]
        dsimp only
        rw [show reconnectRateOfHistoryVal now (PyVal.list l) wh =
          compute_reconnect_rate now l wh from rfl,
          compute_reconnect_rate_eq now l wh hltsf]
        dsimp only
        by_cases hr : thr ≤ spec_reconnect_rate now l wh
        · rw [if_pos hr]
          exact ⟨true, rfl⟩
        · rw [if_neg hr, h1]
          dsimp only
          rw [show pyGet (PyVal.dict m) "last_seen" =
            .ok ((lookupKey m "last_seen").getD .none) from rfl]
          dsimp only
          by_cases ht : pyTruthy ((lookupKey m "last_seen").getD .none)
          · rw [if_pos ht]
            cases hpf : pyFromIso ((lookupKey m "last_seen").getD .none) with
            | ok t =>
                dsimp only
                exact ⟨_, by rw [pyTry]⟩
            | error e =>
                rcases pyFromIso_err _ _ hpf with rfl | rfl <;>
                  exact ⟨false, by rw [pyTry]; simp⟩
          · rw [if_neg ht]
            exact ⟨false, rfl⟩
    | none => simp [deviceWF] at hdev
    | bool b => simp [deviceWF] at hdev
    | int n => simp [deviceWF] at hdev
    | float q => simp [deviceWF] at hdev
    | str s => simp [deviceWF] at hdev
    | list ll => simp [deviceWF] at hdev

/-- Witness for C2 (amended) on a small well-formed history and device. -/
theorem C2_no_raise_on_wf_witness :
    (∃ q, compute_reconnect_rate 0
      [.dict [("timestamp", .str "0001-01-01T00:00:00")]] 24 = .ok q) ∧
    (∃ t, compute_battery_trend 20 0
      [.dict [("timestamp", .str "0001-01-01T00:00:00")]] 24 = .ok t) ∧
    (∃ s, compute_health_score 24 0
      (.dict [("metrics", .dict []), ("history", .list [])])
      [.dict [("timestamp", .str "0001-01-01T00:00:00")]] = .ok s) ∧
    (∃ b, check_battery_drain_warning 20 5 0
      [.dict [("timestamp", .str "0001-01-01T00:00:00")]] = .ok b) ∧
    (∃ b, check_connectivity_warning 24 0
      (.dict [("metrics", .dict []), ("history", .list [])]) 5 = .ok b) :=
  C2_no_raise_on_wf 20 5 0 24
    [.dict [("timestamp", .str "0001-01-01T00:00:00")]]
    (.dict [("metrics", .dict []), ("history", .list [])])
    (by decide) (by decide) (by decide) (by decide)

end ZigSight
